import Mathlib

/-!
# go_matchmaking: a shallow embedding of `client.go` and `server.go`

Go strings and byte slices are finite byte sequences, so both are lists of
bytes here.  A TCP connection is the sequence of bytes the peer still sends
before its end of the stream closes.  Every source of nondeterminism of one
iteration of the server loop (the UUID generator, the outcome of `conn.Write`,
how many bytes a single `conn.Read` delivers, the iteration order of a Go map)
is an explicit field of `Env`.
-/

deriving instance DecidableEq for Except

namespace Matchmaking

/-! ## Bytes and strings -/

/-- A Go `byte`. -/
abbrev Byte := Fin 256

/-- A Go `string` (equivalently a `[]byte`): a finite sequence of bytes. -/
abbrev GoString := List Byte

/-- The bytes of an ASCII string literal of the source. -/
def ascii (s : String) : GoString :=
  s.toList.map (fun c => (⟨c.toNat % 256, Nat.mod_lt _ (by decide)⟩ : Byte))

/-- The result of `make([]byte, n)`: `n` zero bytes. -/
def makeBytes (n : Nat) : List Byte := List.replicate n 0

/-- Go's builtin `copy(dst, src)`: overwrites the first `min (len dst) (len src)`
bytes of `dst` with those of `src`; the value is the new contents of `dst`. -/
def goCopy (dst src : List Byte) : List Byte :=
  src.take dst.length ++ dst.drop src.length

/-- The statement `copy(buffer[lo:hi], src)`: the new contents of `buffer`. -/
def copyInto (buffer : List Byte) (lo hi : Nat) (src : List Byte) : List Byte :=
  buffer.take lo ++ goCopy ((buffer.take hi).drop lo) src ++ buffer.drop hi

/-- The slice expression `buffer[lo:hi]`. -/
def slice (buffer : List Byte) (lo hi : Nat) : List Byte :=
  (buffer.take hi).drop lo

/-! ## Data model (`server.go` lines 14-36, `client.go` lines 12-23) -/

/-- The struct `Client` of `server.go`. -/
structure Client where
  Address : GoString
  ID : GoString
  GameMode : Byte
  deriving DecidableEq, Repr

/-- The struct `GameServers` of `server.go`. -/
structure GameServers where
  Address : GoString
  GameMode : Byte
  deriving DecidableEq, Repr

/-- The struct `Match` of `server.go`. -/
structure Match where
  Client1Address : GoString
  Client2Address : GoString
  deriving DecidableEq, Repr

/-- The struct `Header` (the same in `client.go` and `server.go`). -/
structure Header where
  Version : GoString
  GameMode : Byte
  clientID : GoString
  deriving DecidableEq, Repr

/-- The constant `VERSION = "003"` of `server.go`. -/
def VERSION : GoString := ascii "003"

/-- The constant `VERSION = "0031"` of `client.go`. -/
def clientVERSION : GoString := ascii "0031"

/-! ## 32-bit integers and the big-endian length field -/

/-- The Go conversion `int32(n)`: wrap into the signed 32-bit range. -/
def int32 (n : Int) : Int :=
  let r := n % 4294967296
  if r < 2147483648 then r else r - 4294967296

/-- The four bytes `binary.Write(_, binary.BigEndian, v)` emits for an `int32`. -/
def putInt32BE (v : Int) : List Byte :=
  let u := (v % 4294967296).toNat
  [⟨u / 16777216 % 256, Nat.mod_lt _ (by decide)⟩,
   ⟨u / 65536 % 256, Nat.mod_lt _ (by decide)⟩,
   ⟨u / 256 % 256, Nat.mod_lt _ (by decide)⟩,
   ⟨u % 256, Nat.mod_lt _ (by decide)⟩]

/-- The `int32` that `binary.Read(_, binary.BigEndian, &v)` decodes from four bytes. -/
def getInt32BE (b0 b1 b2 b3 : Byte) : Int :=
  int32 (b0.val * 16777216 + b1.val * 65536 + b2.val * 256 + b3.val : Nat)

/-! ## Client side encoders (`client.go`) -/

/-- The bytes `sendMessageWithLength` hands to `conn.Write` (`client.go` lines 49-66):
the length of the message as a big-endian `int32`, then the message. -/
def sendMessageWithLength (message : GoString) : List Byte :=
  let messageBytes := message
  let messageLength := int32 messageBytes.length
  putInt32BE messageLength ++ messageBytes

/-- The 40-byte buffer `sendHeader` hands to `conn.Write` (`client.go` lines 68-82).
The branch for a client ID whose length is not 36 only replaces the slice by a
copy of itself, so it does not change the bytes. -/
def sendHeader (header : Header) : List Byte :=
  let buffer := makeBytes 40
  let buffer := copyInto buffer 0 3 header.Version
  let buffer := buffer.set 3 header.GameMode
  let clientIDBytes := header.clientID
  let clientIDBytes :=
    if clientIDBytes.length ≠ 36 then ([] : List Byte) ++ clientIDBytes else clientIDBytes
  copyInto buffer 4 40 clientIDBytes

/-! ## The connection (`net.Conn`) -/

/-- How the incoming byte stream of a connection ends: the peer closed it
(reads then report `io.EOF`) or the transport failed (reads report another error). -/
inductive StreamEnd where
  | closed
  | failed
  deriving DecidableEq, Repr

/-- The errors a read can report. -/
inductive ReadErr where
  | EOF
  | ErrUnexpectedEOF
  | transport
  deriving DecidableEq, Repr

/-- A `net.Conn` as the server sees it: the remote address, the bytes the peer
still sends before its stream ends, the way it ends, and the payloads of the
successful `conn.Write` calls so far. -/
structure Conn where
  RemoteAddr : GoString
  incoming : List Byte
  ending : StreamEnd
  written : List (List Byte)
  deriving DecidableEq, Repr

/-- The error reported by a read that finds the stream exhausted. -/
def Conn.endErr (conn : Conn) : ReadErr :=
  match conn.ending with
  | .closed => .EOF
  | .failed => .transport

/-- The call `io.ReadFull(conn, buf)` with `len(buf) = n`: reads until `n` bytes are
there.  A buffer of length 0 succeeds without reading; a stream that ends early
gives `io.EOF` when nothing was read, `io.ErrUnexpectedEOF` when something was,
and the transport's error when the transport failed. -/
def readFull (conn : Conn) (n : Nat) : Except ReadErr (List Byte) × Conn :=
  if n ≤ conn.incoming.length then
    (.ok (conn.incoming.take n), { conn with incoming := conn.incoming.drop n })
  else
    let err :=
      match conn.ending with
      | .closed => if conn.incoming.length = 0 then ReadErr.EOF else ReadErr.ErrUnexpectedEOF
      | .failed => ReadErr.transport
    (.error err, { conn with incoming := [] })

/-- The call `binary.Read(conn, binary.BigEndian, &messageLength)` for an `int32`:
`io.ReadFull` of four bytes, then the big-endian decoding. -/
def binaryReadInt32 (conn : Conn) : Except ReadErr Int × Conn :=
  match readFull conn 4 with
  | (.ok [b0, b1, b2, b3], conn') => (.ok (getInt32BE b0 b1 b2 b3), conn')
  | (.ok _, conn') => (.error .ErrUnexpectedEOF, conn')
  | (.error e, conn') => (.error e, conn')

/-- The number of bytes one `conn.Read(buffer)` returns when `len(buffer) = size`,
`arrived` bytes have reached the socket and the stream is not exhausted: at least
one byte, at most `size`, never more than the peer sends. -/
def readCount (conn : Conn) (size arrived : Nat) : Nat :=
  min size (min conn.incoming.length (max arrived 1))

/-- One call `conn.Read(buffer)` on a TCP connection with `len(buffer) = size`:
either an error and no bytes, or between 1 and `size` bytes and no error. -/
def connRead (conn : Conn) (size arrived : Nat) : Except ReadErr (List Byte) × Conn :=
  if conn.incoming.length = 0 then
    (.error conn.endErr, conn)
  else
    let n := readCount conn size arrived
    (.ok (conn.incoming.take n), { conn with incoming := conn.incoming.drop n })

/-- One call `conn.Write(p)`: fails, or appends `p` to what the peer receives. -/
def connWrite (conn : Conn) (p : List Byte) (fails : Bool) : Bool × Conn :=
  if fails then (false, conn) else (true, { conn with written := conn.written ++ [p] })

/-! ## The registry: a Go `map[string]Client` -/

/-- A Go `map[string]Client`, as the list of its entries.  The operations below
keep the keys distinct whenever they were. -/
abbrev Registry := List (GoString × Client)

/-- The keys of a map. -/
def mapKeys (clients : Registry) : List GoString := clients.map Prod.fst

/-- The two-valued index expression `v, ok := clients[k]`. -/
def mapGet? : Registry → GoString → Option Client
  | [], _ => none
  | (k', c) :: rest, k => if k' = k then some c else mapGet? rest k

/-- The index expression `clients[k]`: the zero `Client` when `k` is absent. -/
def mapIndex (clients : Registry) (k : GoString) : Client :=
  (mapGet? clients k).getD ⟨[], [], 0⟩

/-- The assignment `clients[k] = c`. -/
def mapSet : Registry → GoString → Client → Registry
  | [], k, c => [(k, c)]
  | (k', c') :: rest, k, c =>
    if k' = k then (k, c) :: rest else (k', c') :: mapSet rest k c

/-- The builtin `delete(clients, k)`. -/
def mapDelete (clients : Registry) (k : GoString) : Registry :=
  clients.filter (fun e => decide (e.1 ≠ k))

/-- The entries of a map in the order one `range` loop visits them.  Go leaves the
order unspecified; `seed` selects one of the permutations of the entries, and every
permutation is selected by some seed. -/
def mapRange (seed : Nat) (clients : Registry) : List (GoString × Client) :=
  (List.permutations' clients).getD (seed % (List.permutations' clients).length) clients

/-! ## Registry operations of `server.go` -/

/-- The function `createClientToken` (`server.go` lines 39-44). -/
def createClientToken (clients : Registry) (clientAddr clientID : GoString)
    (GameMode : Byte) : Registry :=
  mapSet clients clientID { Address := clientAddr, ID := clientID, GameMode := GameMode }

/-- The function `deleteClientToken` (`server.go` lines 47-51): deletes the key
`clientAddr`. -/
def deleteClientToken (clients : Registry) (clientAddr : GoString) : Registry :=
  mapDelete clients clientAddr

/-- The rows `ListAllTokens` prints (`server.go` lines 54-63), in range order. -/
def ListAllTokens (clients : Registry) (seed : Nat) : List Client :=
  (mapRange seed clients).map Prod.snd

/-- The function `clientHasToken` (`server.go` lines 66-69). -/
def clientHasToken (clients : Registry) (clientId : GoString) : Bool :=
  (mapGet? clients clientId).isSome

/-- The loop of `findClientAddressByGameMode` over the entries in a given order. -/
def findClientLoop : List (GoString × Client) → Byte → GoString → GoString × GoString
  | [], _, _ => ([], [])
  | (_, client) :: rest, gameMode, clientID =>
    if client.GameMode = gameMode ∧ client.ID ≠ clientID then (client.Address, client.ID)
    else findClientLoop rest gameMode clientID

/-- The function `findClientAddressByGameMode` (`server.go` lines 72-79); `seed`
fixes the order of its `range` loop. -/
def findClientAddressByGameMode (clients : Registry) (gameMode : Byte) (clientID : GoString)
    (seed : Nat) : GoString × GoString :=
  findClientLoop (mapRange seed clients) gameMode clientID

/-- The slice literal `servers` of `findAvailableGameServer`. -/
def servers : List GameServers :=
  [{ Address := ascii "192.168.1.1", GameMode := 0 },
   { Address := ascii "192.168.2.2", GameMode := 1 },
   { Address := ascii "10.0.0.5", GameMode := 2 }]

/-- The loop of `findAvailableGameServer`. -/
def findServerLoop : List GameServers → Byte → GoString
  | [], _ => []
  | server :: rest, gameMode =>
    if server.GameMode = gameMode then server.Address else findServerLoop rest gameMode

/-- The function `findAvailableGameServer` (`server.go` lines 81-103). -/
def findAvailableGameServer (gameMode : Byte) : GoString :=
  findServerLoop servers gameMode

/-- The function `createMatch` (`server.go` lines 105-110). -/
def createMatch (client1 client2 : GoString) : Match :=
  { Client1Address := client1, Client2Address := client2 }

/-! ## Header validation -/

/-- The errors `checkHeaders` returns. -/
inductive HeaderError where
  /-- "error reading from connection: ..." -/
  | readFailed
  /-- `io.EOF`, returned as it is -/
  | EOF
  /-- "ERROR: Received invalid header data" -/
  | invalidHeader (client1Address : GoString)
  /-- "version mismatch: received version ..., expected version ..." -/
  | versionMismatch (received expected : GoString)
  deriving DecidableEq, Repr

/-- The function `checkHeaders` (`server.go` lines 113-142): one `conn.Read` into a
40-byte buffer, then the checks on the count and on the version. -/
def checkHeaders (conn : Conn) (client1Address : GoString) (arrived : Nat) :
    Except HeaderError Header × Conn :=
  let buffer := makeBytes 40
  match connRead conn buffer.length arrived with
  | (.error err, conn') =>
    if err ≠ ReadErr.EOF then (.error .readFailed, conn') else (.error .EOF, conn')
  | (.ok data, conn') =>
    let n := data.length
    let buffer := goCopy buffer data
    if n ≠ buffer.length then (.error (.invalidHeader client1Address), conn')
    else
      let Version := slice buffer 0 3
      if Version ≠ VERSION then (.error (.versionMismatch Version VERSION), conn')
      else
        (.ok { Version := Version, GameMode := buffer.getD 3 0, clientID := slice buffer 4 40 },
          conn')

/-! ## The connection handler -/

/-- The lines `handleConnection` and its callees print, one constructor for each
print statement, with the values they are given. -/
inductive Log where
  /-- line 147 -/
  | clientConnected (client1Address : GoString)
  /-- line 156 -/
  | connectionClosed (client1Address : GoString)
  /-- line 159 -/
  | errReadLength (err : ReadErr)
  /-- line 167 -/
  | errReadMessage (err : ReadErr)
  /-- line 173 -/
  | receivedHello (client1Address : GoString)
  /-- line 179 -/
  | errWrite
  /-- line 183 -/
  | receivedToken (client1Address : GoString)
  /-- lines 187 and 208 -/
  | headerError (err : HeaderError)
  /-- line 192 -/
  | uuidMismatch (client1 got : GoString)
  /-- line 197 -/
  | alreadyHasToken (client1 : GoString)
  /-- line 43 -/
  | tokenCreated (clientID : GoString)
  /-- line 204 -/
  | receivedMatch (client1Address : GoString)
  /-- line 211 -/
  | matchRequest (client1Address : GoString) (GameMode : Byte) (clientID : GoString)
  /-- line 214 -/
  | findingMatch (client1 : GoString)
  /-- lines 56-61 -/
  | currentClients (rows : List Client)
  /-- line 218 -/
  | foundClient (client1 : GoString) (GameMode : Byte) (client2 : GoString)
  /-- line 223 -/
  | matchCreated (gameserver client1 : GoString) (m : Match) (client2 : GoString)
  /-- line 226 -/
  | cannotFind (client1 : GoString) (GameMode : Byte)
  /-- line 229 -/
  | noToken (client1 : GoString)
  /-- line 232 -/
  | unknownMessage (client1Address message : GoString)
  deriving DecidableEq, Repr

/-- What the environment decides during one iteration of the loop of
`handleConnection`. -/
structure Env where
  /-- the value of `uuid.New().String()` -/
  uuid : GoString
  /-- whether `conn.Write` fails -/
  writeFails : Bool
  /-- how many bytes have reached the socket when `checkHeaders` calls `conn.Read` -/
  arrived : Nat
  /-- the order of the `range` loop of `ListAllTokens` -/
  listSeed : Nat
  /-- the order of the `range` loop of `findClientAddressByGameMode` -/
  findSeed : Nat
  deriving DecidableEq, Repr

/-- The local variables of one `handleConnection` call that live across iterations. -/
structure Session where
  conn : Conn
  client1Address : GoString
  client1 : GoString
  deriving DecidableEq, Repr

/-- How one iteration of the loop ends: it falls through to the next iteration, it
executes `return`, or it raises a run-time panic. -/
inductive Control where
  | loop
  | exit
  | crash
  deriving DecidableEq, Repr

/-- The result of one iteration: how it ended, the local variables, the shared map
and the lines printed. -/
structure Outcome where
  control : Control
  session : Session
  clients : Registry
  log : List Log
  deriving DecidableEq, Repr

/-- The locals of `handleConnection` before its loop (`server.go` lines 145-148). -/
def newSession (conn : Conn) : Session :=
  { conn := conn, client1Address := conn.RemoteAddr, client1 := [] }

/-- The arm `case "hello"` (`server.go` lines 172-181). -/
def caseHello (env : Env) (s : Session) (clients : Registry) : Outcome :=
  let client1 := env.uuid
  let clientIDbuffer := client1
  match connWrite s.conn clientIDbuffer env.writeFails with
  | (false, conn) =>
    { control := .exit, session := { s with conn := conn, client1 := client1 },
      clients := clients, log := [.receivedHello s.client1Address, .errWrite] }
  | (true, conn) =>
    { control := .loop, session := { s with conn := conn, client1 := client1 },
      clients := clients, log := [.receivedHello s.client1Address] }

/-- The arm `case "token"` (`server.go` lines 182-201). -/
def caseToken (env : Env) (s : Session) (clients : Registry) : Outcome :=
  match checkHeaders s.conn s.client1Address env.arrived with
  | (.error err, conn) =>
    { control := .exit, session := { s with conn := conn }, clients := clients,
      log := [.receivedToken s.client1Address, .headerError err] }
  | (.ok header, conn) =>
    if header.clientID ≠ s.client1 then
      { control := .exit, session := { s with conn := conn }, clients := clients,
        log := [.receivedToken s.client1Address, .uuidMismatch s.client1 header.clientID] }
    else if clientHasToken clients s.client1 then
      { control := .exit, session := { s with conn := conn }, clients := clients,
        log := [.receivedToken s.client1Address, .alreadyHasToken s.client1] }
    else
      { control := .loop, session := { s with conn := conn },
        clients := createClientToken clients s.client1Address s.client1 header.GameMode,
        log := [.receivedToken s.client1Address, .tokenCreated s.client1] }

/-- The lines printed by the branch of `case "match"` taken when the client has a
token (`server.go` lines 214-227). -/
def matchLog (env : Env) (client1Address client1 : GoString) (clients : Registry) : List Log :=
  let found :=
    findClientAddressByGameMode clients (mapIndex clients client1).GameMode
      (mapIndex clients client1).ID env.findSeed
  let client2Address := found.1
  let client2 := found.2
  [Log.findingMatch client1, Log.currentClients (ListAllTokens clients env.listSeed)] ++
  if client2 ≠ [] then
    let gameserver := findAvailableGameServer (mapIndex clients client1).GameMode
    [Log.foundClient client1 (mapIndex clients client1).GameMode client2] ++
    if gameserver ≠ [] then
      let m := createMatch client1Address client2Address
      [Log.matchCreated gameserver client1 m client2]
    else []
  else
    [Log.cannotFind client1 (mapIndex clients client1).GameMode]

/-- The arm `case "match"` (`server.go` lines 203-230). -/
def caseMatch (env : Env) (s : Session) (clients : Registry) : Outcome :=
  match checkHeaders s.conn s.client1Address env.arrived with
  | (.error err, conn) =>
    { control := .exit, session := { s with conn := conn }, clients := clients,
      log := [.receivedMatch s.client1Address, .headerError err] }
  | (.ok header, conn) =>
    { control := .loop, session := { s with conn := conn }, clients := clients,
      log :=
        [Log.receivedMatch s.client1Address,
         Log.matchRequest s.client1Address header.GameMode header.clientID] ++
        if clientHasToken clients s.client1 then matchLog env s.client1Address s.client1 clients
        else [Log.noToken s.client1] }

/-- The statement `switch string(message)` (`server.go` lines 171-233). -/
def dispatch (env : Env) (s : Session) (clients : Registry) (message : List Byte) : Outcome :=
  if message = ascii "hello" then caseHello env s clients
  else if message = ascii "token" then caseToken env s clients
  else if message = ascii "match" then caseMatch env s clients
  else
    { control := .loop, session := s, clients := clients,
      log := [.unknownMessage s.client1Address message] }

/-- One iteration of the loop of `handleConnection` (`server.go` lines 150-234). -/
def loopBody (env : Env) (s : Session) (clients : Registry) : Outcome :=
  match binaryReadInt32 s.conn with
  | (.error err, conn) =>
    if err = ReadErr.EOF then
      { control := .exit, session := { s with conn := conn }, clients := clients,
        log := [.connectionClosed s.client1Address] }
    else
      { control := .exit, session := { s with conn := conn }, clients := clients,
        log := [.errReadLength err] }
  | (.ok messageLength, conn) =>
    if messageLength < 0 then
      -- `make([]byte, messageLength)` with a negative length panics
      { control := .crash, session := { s with conn := conn }, clients := clients, log := [] }
    else
      match readFull conn messageLength.toNat with
      | (.error err, conn) =>
        { control := .exit, session := { s with conn := conn }, clients := clients,
          log := [.errReadMessage err] }
      | (.ok message, conn) => dispatch env { s with conn := conn } clients message

/-- The loop of `handleConnection`, for at most `fuel` iterations; `envs i` is the
environment of iteration `i`.  Without fuel left the value is `none`. -/
def handleLoop : Nat → (Nat → Env) → Session → Registry → List Log → Option Outcome
  | 0, _, _, _, _ => none
  | fuel + 1, envs, s, clients, log =>
    let out := loopBody (envs 0) s clients
    match out.control with
    | .loop => handleLoop fuel (fun i => envs (i + 1)) out.session out.clients (log ++ out.log)
    | _ => some { out with log := log ++ out.log }

/-- The function `handleConnection` (`server.go` lines 144-235), run alone on the
map.  Every iteration that does not return consumes the four bytes of a length
field, so the length of the incoming stream plus one is enough fuel. -/
def handleConnection (envs : Nat → Env) (conn : Conn) (clients : Registry) : Option Outcome :=
  handleLoop (conn.incoming.length + 1) envs (newSession conn) clients
    [.clientConnected conn.RemoteAddr]

/-! ## Sequences of registry calls -/

/-- A call of one of the two functions that write the map. -/
inductive RegistryOp where
  /-- the call `createClientToken(clients, clientAddr, clientID, GameMode, mu)` -/
  | create (clientAddr clientID : GoString) (GameMode : Byte)
  /-- the call `deleteClientToken(clients, clientAddr, mu)` -/
  | delete (clientAddr : GoString)
  deriving DecidableEq, Repr

/-- The map after one call. -/
def applyOp (clients : Registry) : RegistryOp → Registry
  | .create clientAddr clientID GameMode => createClientToken clients clientAddr clientID GameMode
  | .delete clientAddr => deleteClientToken clients clientAddr

/-- The map after a sequence of calls, first call first. -/
def applyOps (ops : List RegistryOp) (clients : Registry) : Registry :=
  ops.foldl applyOp clients

/-- The records of a map are stored under their own ID and the keys are distinct. -/
def KeyedByID (clients : Registry) : Prop :=
  (mapKeys clients).Nodup ∧ ∀ e ∈ clients, e.2.ID = e.1

/-! ## Reachable session states -/

/-- The states of the locals of `handleConnection conn` at the head of its loop,
with the environments of the iterations done so far.  Other connections may change
the shared map at any time, so the map an iteration sees is arbitrary. -/
inductive SessionReach (conn : Conn) : List Env → Session → Prop where
  | start : SessionReach conn [] (newSession conn)
  | step (envs : List Env) (s : Session) (env : Env) (clients : Registry) :
      SessionReach conn envs s → (loopBody env s clients).control = Control.loop →
      SessionReach conn (envs ++ [env]) (loopBody env s clients).session

/-- What one iteration can do to the map and to the identifier, for a session whose
address is `addr`, whose identifier is `client1` and whose connection has carried the
payloads `written`: the address is kept; the map is unchanged, or the iteration goes
on to the next one after storing a record under `client1`, which then has 36 bytes
and had no token; the identifier and the payloads are unchanged, or the identifier
is the fresh UUID, written to the connection if the iteration goes on. -/
def StepFacts (addr client1 : GoString) (written : List (List Byte)) (env : Env)
    (clients : Registry) (out : Outcome) : Prop :=
  out.session.client1Address = addr
  ∧ (out.clients = clients
      ∨ (∃ GameMode, out.clients = createClientToken clients addr client1 GameMode)
          ∧ client1.length = 36 ∧ clientHasToken clients client1 = false
          ∧ out.control = Control.loop)
  ∧ ((out.session.client1 = client1 ∧ out.session.conn.written = written)
      ∨ (out.session.client1 = env.uuid
          ∧ (out.control = Control.loop → out.session.conn.written = written ++ [env.uuid])))

/-! ## Sample data -/

/-- A sample UUID string (36 bytes). -/
def uuidA : GoString := ascii "11111111-1111-4111-8111-111111111111"

/-- Another sample UUID string (36 bytes). -/
def uuidB : GoString := ascii "22222222-2222-4222-8222-222222222222"

/-- A sample remote address. -/
def addrA : GoString := ascii "10.0.0.1:50001"

/-- Another sample remote address. -/
def addrB : GoString := ascii "10.0.0.2:50002"

/-- An environment that issues `uuid`, lets the write succeed and has the whole
header arrived when it is read. -/
def envOf (uuid : GoString) : Env :=
  { uuid := uuid, writeFails := false, arrived := 40, listSeed := 0, findSeed := 0 }

/-- A fresh connection from `addr` on which the peer sends `bytes` and then closes. -/
def connOf (addr : GoString) (bytes : List Byte) : Conn :=
  { RemoteAddr := addr, incoming := bytes, ending := .closed, written := [] }

/-- The bytes the client of `client.go` sends for a message followed by a header. -/
def withHeader (message : GoString) (header : Header) : List Byte :=
  sendMessageWithLength message ++ sendHeader header

/-- The session of a client at `addrA` after its "hello" was answered with `uuidA`,
when the client goes on to send the bytes `bytes`. -/
def greeted (bytes : List Byte) : Session :=
  (loopBody (envOf uuidA)
    (newSession (connOf addrA (sendMessageWithLength (ascii "hello") ++ bytes))) []).session

/-- The map holding the record of the client at `addrA` under `uuidA`, in mode 1. -/
def oneClient : Registry :=
  [(uuidA, { Address := addrA, ID := uuidA, GameMode := 1 })]

/-- Three sample records: two in mode 1, one in mode 2. -/
def recordA : Client := { Address := addrA, ID := uuidA, GameMode := 1 }

/-- The second sample record, in mode 1. -/
def recordB : Client := { Address := addrB, ID := uuidB, GameMode := 1 }

/-- The third sample record, in mode 2. -/
def recordC : Client := { Address := ascii "10.0.0.3:50003", ID := ascii "c", GameMode := 2 }

/-- Five iterations on one shared map, starting from the empty map: two iterations of
the handler of `conn1`, then three iterations of the handler of `conn2`.  The value
is the outcome of the fourth and of the fifth iteration. -/
def twoClients (conn1 conn2 : Conn) (e1 e2 e3 e4 e5 : Env) : Outcome × Outcome :=
  let o1 := loopBody e1 (newSession conn1) []
  let o2 := loopBody e2 o1.session o1.clients
  let o3 := loopBody e3 (newSession conn2) o2.clients
  let o4 := loopBody e4 o3.session o3.clients
  let o5 := loopBody e5 o4.session o4.clients
  (o4, o5)

/-- What the client of `client.go` sends up to its token, for the identifier `uuid`
and the mode `m`. -/
def helloToken (m : Byte) (uuid : GoString) : List Byte :=
  sendMessageWithLength (ascii "hello") ++ (withHeader (ascii "token") ⟨VERSION, m, uuid⟩ ++ [])

/-- What the client of `client.go` sends in all, for the identifier `uuid` and the
mode `m`. -/
def helloTokenMatch (m : Byte) (uuid : GoString) : List Byte :=
  sendMessageWithLength (ascii "hello")
    ++ (withHeader (ascii "token") ⟨VERSION, m, uuid⟩
      ++ (withHeader (ascii "match") ⟨VERSION, m, uuid⟩ ++ []))

/-- A connection from `addrA` whose peer does "hello" and "token" twice, the second
time with the second identifier it was given. -/
def reHelloConn : Conn :=
  connOf addrA (helloToken 1 uuidA ++ helloToken 1 uuidB)

/-- The environments of the iterations on `reHelloConn`: the UUID generator gives
`uuidA` during the first two iterations and `uuidB` afterwards. -/
def reHelloEnvs : Nat → Env :=
  fun i => if i < 2 then envOf uuidA else envOf uuidB

/-! ## Reachable maps -/

/-- The states of the shared map: empty when the server starts, then changed by the
iterations of the handlers, each in a reachable state of its own connection, in any
interleaving. -/
inductive RegistryReach : Registry → Prop where
  | empty : RegistryReach []
  | step (clients : Registry) (conn : Conn) (envs : List Env) (s : Session) (env : Env) :
      RegistryReach clients → SessionReach conn envs s →
      RegistryReach (loopBody env s clients).clients

/-- A session of the registered client at `addrA` that polls twice for a partner. -/
def pollingSession : Session :=
  { conn := connOf addrA
      (withHeader (ascii "match") ⟨VERSION, 1, uuidA⟩
        ++ withHeader (ascii "match") ⟨VERSION, 1, uuidA⟩),
    client1Address := addrA, client1 := uuidA }

/-- A session of a client at `addrB`, greeted with `uuidB`, that registers in mode 1. -/
def newcomerSession : Session :=
  { conn := connOf addrB (withHeader (ascii "token") ⟨VERSION, 1, uuidB⟩),
    client1Address := addrB, client1 := uuidB }

/-! ## Lemmas -/

theorem copyInto_makeBytes_zero (n k : Nat) (src : List Byte) (hk : k ≤ n) :
    copyInto (makeBytes n) 0 k src
      = src.take k ++ List.replicate (k - src.length) 0 ++ List.replicate (n - k) 0 := by
  simp [copyInto, goCopy, makeBytes, List.take_replicate, List.drop_replicate, Nat.min_eq_left hk]

theorem sendHeader_eq (h : Header) :
    sendHeader h
      = (h.Version.take 3 ++ List.replicate (3 - h.Version.length) 0) ++ [h.GameMode]
        ++ (h.clientID.take 36 ++ List.replicate (36 - h.clientID.length) 0) := by
  have e1 : copyInto (makeBytes 40) 0 3 h.Version
      = (h.Version.take 3 ++ List.replicate (3 - h.Version.length) 0) ++ (0 :: List.replicate 36 0) := by
    rw [copyInto_makeBytes_zero 40 3 _ (by decide)]; rfl
  have hl : (h.Version.take 3 ++ List.replicate (3 - h.Version.length) (0 : Byte)).length = 3 := by
    simp; omega
  simp only [sendHeader, e1]
  generalize h.Version.take 3 ++ List.replicate (3 - h.Version.length) (0 : Byte) = v at hl
  obtain ⟨a, b, c, rfl⟩ := List.length_eq_three.mp hl
  have e3 : (if h.clientID.length ≠ 36 then ([] : List Byte) ++ h.clientID else h.clientID) = h.clientID := by
    split <;> simp
  rw [e3]
  generalize hz : List.replicate 36 (0 : Byte) = z
  have hzl : z.length = 36 := by rw [← hz]; simp
  have t1 : (([a, b, c] ++ 0 :: z).set 3 h.GameMode).take 4 = [a, b, c] ++ [h.GameMode] := by
    simp
  have t2 : ((([a, b, c] ++ 0 :: z).set 3 h.GameMode).take 40).drop 4 = z := by
    simp [List.take_of_length_le, hzl]
  have t3 : (([a, b, c] ++ 0 :: z).set 3 h.GameMode).drop 40 = [] := by
    simp [hzl]
  rw [copyInto, t1, t2, t3, goCopy, hzl, ← hz, List.drop_replicate]
  simp

theorem connRead_ok (conn : Conn) (size arrived : Nat) (h : conn.incoming ≠ []) :
    connRead conn size arrived
      = (.ok (conn.incoming.take (readCount conn size arrived)),
          { conn with incoming := conn.incoming.drop (readCount conn size arrived) }) := by
  have : conn.incoming.length ≠ 0 := by
    intro h0; exact h (List.length_eq_zero.mp h0)
  simp [connRead, this]

theorem connRead_error (conn : Conn) (size arrived : Nat) (h : conn.incoming = []) :
    connRead conn size arrived = (.error conn.endErr, conn) := by
  simp [connRead, h]

theorem connRead_length_le (conn : Conn) (size arrived : Nat) (data : List Byte)
    (h : (connRead conn size arrived).1 = .ok data) :
    data.length ≤ size ∧ data.length ≤ conn.incoming.length ∧ data.length ≤ max arrived 1
      ∧ data = conn.incoming.take data.length := by
  by_cases h0 : conn.incoming = []
  · rw [connRead_error _ _ _ h0] at h; cases h
  · rw [connRead_ok _ _ _ h0] at h
    simp only [Except.ok.injEq] at h
    subst h
    simp only [List.length_take, readCount]
    refine ⟨by omega, by omega, by omega, ?_⟩
    congr 1
    omega

/-- The parsing of `checkHeaders` once `conn.Read` has returned `data`. -/
theorem checkHeaders_of_read (conn conn' : Conn) (addr : GoString) (arrived : Nat)
    (data : List Byte) (h : connRead conn 40 arrived = (.ok data, conn')) :
    checkHeaders conn addr arrived =
      if data.length ≠ 40 then (.error (.invalidHeader addr), conn')
      else if data.take 3 ≠ VERSION then
        (.error (.versionMismatch (data.take 3) VERSION), conn')
      else (.ok { Version := data.take 3, GameMode := data.getD 3 0, clientID := data.drop 4 },
              conn') := by
  have hle := (connRead_length_le conn 40 arrived data (by rw [h])).1
  simp only [checkHeaders, makeBytes, List.length_replicate, h, goCopy]
  have hlen : (List.take 40 data ++ List.drop data.length (List.replicate 40 (0 : Byte))).length
      = 40 := by
    simp [List.length_take, List.length_drop]; omega
  rw [hlen]
  by_cases h40 : data.length = 40
  · have hb : List.take 40 data ++ List.drop data.length (List.replicate 40 (0 : Byte)) = data := by
      rw [h40, List.take_of_length_le (by omega)]; simp
    rw [hb]
    have hs1 : slice data 0 3 = data.take 3 := by
      simp [slice, List.take_take]
    have hs2 : slice data 4 40 = data.drop 4 := by
      simp [slice, List.take_of_length_le (le_of_eq h40)]
    rw [hs1, hs2]
  · simp [h40]

theorem int32_of_small (n : Nat) (h : n < 2147483648) : int32 (n : Int) = n := by
  unfold int32
  have : ((n : Int) % 4294967296) = n := by omega
  simp only [this]
  split
  · rfl
  · omega

theorem getInt32BE_putInt32BE (n : Nat) (h : n < 2147483648) :
    ∃ b0 b1 b2 b3, putInt32BE (int32 (n : Int)) = [b0, b1, b2, b3] ∧ getInt32BE b0 b1 b2 b3 = n := by
  rw [int32_of_small n h]
  refine ⟨_, _, _, _, rfl, ?_⟩
  have hu : ((n : Int) % 4294967296).toNat = n := by omega
  simp only [getInt32BE, hu]
  have : n / 16777216 % 256 * 16777216 + n / 65536 % 256 * 65536 + n / 256 % 256 * 256 + n % 256
      = n := by omega
  rw [this]
  exact int32_of_small n h

theorem readFull_append (conn : Conn) (a rest : List Byte) (h : conn.incoming = a ++ rest) :
    readFull conn a.length = (.ok a, { conn with incoming := rest }) := by
  simp [readFull, h]

/-- One iteration on a stream that starts with a frame written by
`sendMessageWithLength`: the message reaches the `switch` and the rest of the stream
stays on the connection. -/
theorem loopBody_of_frame (env : Env) (s : Session) (clients : Registry)
    (message rest : List Byte) (hlen : message.length < 2147483648)
    (hin : s.conn.incoming = sendMessageWithLength message ++ rest) :
    loopBody env s clients
      = dispatch env { s with conn := { s.conn with incoming := rest } } clients message := by
  obtain ⟨b0, b1, b2, b3, hput, hget⟩ := getInt32BE_putInt32BE message.length hlen
  have hin' : s.conn.incoming = [b0, b1, b2, b3] ++ (message ++ rest) := by
    rw [hin, sendMessageWithLength, hput, List.append_assoc]
  have h1 : binaryReadInt32 s.conn
      = (.ok (message.length : Int), { s.conn with incoming := message ++ rest }) := by
    have := readFull_append s.conn [b0, b1, b2, b3] (message ++ rest) hin'
    simp only [List.length_cons, List.length_nil] at this
    simp only [binaryReadInt32, this, hget]
  have h2 : readFull { s.conn with incoming := message ++ rest } message.length
      = (.ok message, { s.conn with incoming := rest }) :=
    readFull_append _ message rest rfl
  simp only [loopBody, h1]
  have hneg : ¬ ((message.length : Int) < 0) := by omega
  simp only [hneg, if_false, Int.toNat_ofNat, h2]

/-- The server parses the 40 bytes `sendHeader` wrote for version "003" and a 36-byte
identifier back into the same header. -/
theorem checkHeaders_sendHeader (GameMode : Byte) (clientID : GoString) (conn : Conn)
    (client1Address : GoString) (arrived : Nat) (rest : List Byte)
    (hid : clientID.length = 36) (harr : 40 ≤ arrived)
    (hin : conn.incoming
      = sendHeader { Version := VERSION, GameMode := GameMode, clientID := clientID } ++ rest) :
    checkHeaders conn client1Address arrived
      = (.ok { Version := VERSION, GameMode := GameMode, clientID := clientID },
          { conn with incoming := rest }) := by
  have hs : sendHeader { Version := VERSION, GameMode := GameMode, clientID := clientID }
      = VERSION ++ [GameMode] ++ clientID := by
    rw [sendHeader_eq]
    simp only [hid, Nat.sub_self, List.replicate_zero, List.append_nil]
    rw [List.take_of_length_le (le_of_eq hid)]
    rfl
  have hV : VERSION = [48, 48, 51] := by decide
  rw [hs, hV] at hin
  have hne : conn.incoming ≠ [] := by rw [hin]; simp
  have hcount : readCount conn 40 arrived = 40 := by
    simp only [readCount, hin, List.length_append, List.length_cons, List.length_nil, hid]
    omega
  have hread := connRead_ok conn 40 arrived hne
  rw [hcount] at hread
  rw [checkHeaders_of_read conn _ client1Address arrived _ hread, hin]
  have ht : List.take 40 ([48, 48, 51] ++ [GameMode] ++ clientID ++ rest)
      = [48, 48, 51] ++ [GameMode] ++ clientID := by
    rw [List.take_append_of_le_length (by simp [hid])]
    exact List.take_of_length_le (by simp [hid])
  have hd : List.drop 40 ([48, 48, 51] ++ [GameMode] ++ clientID ++ rest) = rest := by
    rw [List.drop_append_of_le_length (by simp [hid])]
    rw [List.drop_of_length_le (by simp [hid])]
    rfl
  rw [ht, hd]
  simp [hid, hV]

theorem readFull_frame (conn : Conn) (n : Nat) :
    (readFull conn n).2.written = conn.written ∧ (readFull conn n).2.RemoteAddr = conn.RemoteAddr := by
  unfold readFull
  split <;> exact ⟨rfl, rfl⟩

theorem binaryReadInt32_frame (conn : Conn) :
    (binaryReadInt32 conn).2.written = conn.written
      ∧ (binaryReadInt32 conn).2.RemoteAddr = conn.RemoteAddr := by
  have h := readFull_frame conn 4
  unfold binaryReadInt32
  split <;> rename_i heq <;> rw [heq] at h <;> exact h

theorem connRead_frame (conn : Conn) (size arrived : Nat) :
    (connRead conn size arrived).2.written = conn.written
      ∧ (connRead conn size arrived).2.RemoteAddr = conn.RemoteAddr := by
  unfold connRead
  split <;> exact ⟨rfl, rfl⟩

theorem checkHeaders_frame (conn : Conn) (addr : GoString) (arrived : Nat) :
    (checkHeaders conn addr arrived).2.written = conn.written
      ∧ (checkHeaders conn addr arrived).2.RemoteAddr = conn.RemoteAddr := by
  have h := connRead_frame conn 40 arrived
  cases hc : connRead conn 40 arrived with
  | mk r c =>
    rw [hc] at h
    cases r with
    | error e =>
      simp only [checkHeaders, makeBytes, List.length_replicate, hc]
      split <;> exact h
    | ok data =>
      rw [checkHeaders_of_read conn c addr arrived data hc]
      split
      · exact h
      · split <;> exact h

theorem checkHeaders_ok (conn conn' : Conn) (addr : GoString) (arrived : Nat) (header : Header)
    (h : checkHeaders conn addr arrived = (.ok header, conn')) :
    header.Version = VERSION ∧ header.clientID.length = 36 := by
  cases hc : connRead conn 40 arrived with
  | mk r c =>
    cases r with
    | error e =>
      simp only [checkHeaders, makeBytes, List.length_replicate, hc] at h
      split at h <;> cases h
    | ok data =>
      rw [checkHeaders_of_read conn c addr arrived data hc] at h
      by_cases h40 : data.length = 40
      · by_cases hv : data.take 3 = VERSION
        · simp only [h40, hv, ne_eq, not_true_eq_false, if_false, Prod.mk.injEq,
            Except.ok.injEq] at h
          rw [← h.1]
          simp [h40, hv]
        · simp [h40, hv] at h
      · simp [h40] at h

theorem mapKeys_mapSet (clients : Registry) (k : GoString) (c : Client) :
    mapKeys (mapSet clients k c)
      = if k ∈ mapKeys clients then mapKeys clients else mapKeys clients ++ [k] := by
  induction clients with
  | nil => simp [mapSet, mapKeys]
  | cons e rest ih =>
    obtain ⟨k', c'⟩ := e
    simp only [mapKeys] at ih
    by_cases hk : k' = k
    · subst hk
      simp [mapSet, mapKeys]
    · have hk' : ¬ k = k' := fun h => hk h.symm
      simp only [mapSet, hk, if_false, mapKeys, List.map_cons, ih, List.mem_cons, hk', false_or]
      split <;> simp

theorem mapKeys_mapSet_nodup (clients : Registry) (k : GoString) (c : Client)
    (hn : (mapKeys clients).Nodup) : (mapKeys (mapSet clients k c)).Nodup := by
  rw [mapKeys_mapSet]
  split
  · exact hn
  · rename_i hk
    exact List.Nodup.append hn (List.nodup_singleton k) (by simpa using hk)

theorem mem_mapSet (clients : Registry) (k : GoString) (c : Client) (e : GoString × Client)
    (hn : (mapKeys clients).Nodup) (h : e ∈ mapSet clients k c) :
    e = (k, c) ∨ (e ∈ clients ∧ e.1 ≠ k) := by
  induction clients with
  | nil => simp [mapSet] at h; exact Or.inl h
  | cons e' rest ih =>
    obtain ⟨k', c'⟩ := e'
    simp only [mapKeys, List.map_cons, List.nodup_cons] at hn
    by_cases hk : k' = k
    · simp only [mapSet, hk, if_true, List.mem_cons] at h
      rcases h with h | h
      · exact Or.inl h
      · right
        refine ⟨List.mem_cons_of_mem _ h, ?_⟩
        intro he
        apply hn.1
        rw [hk, ← he]
        exact List.mem_map_of_mem Prod.fst h
    · simp only [mapSet, hk, if_false, List.mem_cons] at h
      rcases h with h | h
      · right; subst h; exact ⟨List.mem_cons_self _ _, hk⟩
      · rcases ih hn.2 h with h' | h'
        · exact Or.inl h'
        · exact Or.inr ⟨List.mem_cons_of_mem _ h'.1, h'.2⟩

theorem keyedByID_nil : KeyedByID [] := by
  simp [KeyedByID, mapKeys]

theorem keyedByID_createClientToken (clients : Registry) (clientAddr clientID : GoString)
    (GameMode : Byte) (h : KeyedByID clients) :
    KeyedByID (createClientToken clients clientAddr clientID GameMode) := by
  refine ⟨mapKeys_mapSet_nodup _ _ _ h.1, ?_⟩
  intro e he
  rcases mem_mapSet _ _ _ _ h.1 he with h' | h'
  · rw [h']
  · exact h.2 e h'.1

theorem keyedByID_deleteClientToken (clients : Registry) (clientAddr : GoString)
    (h : KeyedByID clients) : KeyedByID (deleteClientToken clients clientAddr) := by
  refine ⟨?_, ?_⟩
  · have : mapKeys (deleteClientToken clients clientAddr)
        = (clients.filter (fun e => decide (e.1 ≠ clientAddr))).map Prod.fst := rfl
    rw [this]
    exact (h.1.sublist ((List.filter_sublist _).map Prod.fst))
  · intro e he
    exact h.2 e (List.mem_of_mem_filter he)

theorem keyedByID_applyOps (ops : List RegistryOp) (clients : Registry) (h : KeyedByID clients) :
    KeyedByID (applyOps ops clients) := by
  induction ops generalizing clients with
  | nil => exact h
  | cons op rest ih =>
    apply ih
    cases op with
    | create a k g => exact keyedByID_createClientToken _ _ _ _ h
    | delete a => exact keyedByID_deleteClientToken _ _ h

theorem keyedByID_ids_nodup (clients : Registry) (h : KeyedByID clients) :
    (clients.map (fun e => e.2.ID)).Nodup := by
  have : clients.map (fun e => e.2.ID) = mapKeys clients := by
    apply List.map_congr_left
    intro e he
    exact h.2 e he
  rw [this]; exact h.1

theorem mapGet?_mem (clients : Registry) (k : GoString) (c : Client)
    (h : mapGet? clients k = some c) : (k, c) ∈ clients := by
  induction clients with
  | nil => simp [mapGet?] at h
  | cons e rest ih =>
    obtain ⟨k', c'⟩ := e
    by_cases hk : k' = k
    · simp only [mapGet?, hk, if_true, Option.some.injEq] at h
      subst h; subst hk; exact List.mem_cons_self _ _
    · simp only [mapGet?, hk, if_false] at h
      exact List.mem_cons_of_mem _ (ih h)

theorem mapRange_perm (seed : Nat) (clients : Registry) : (mapRange seed clients).Perm clients := by
  unfold mapRange
  have hpos : 0 < (List.permutations' clients).length := by
    exact List.length_pos_of_mem (List.mem_permutations'.mpr (List.Perm.refl clients))
  have hlt : seed % (List.permutations' clients).length < (List.permutations' clients).length :=
    Nat.mod_lt _ hpos
  rw [List.getD_eq_getElem _ _ hlt]
  exact List.mem_permutations'.mp (List.getElem_mem hlt)

/-- Every order of the entries is the range order of some seed. -/
theorem mapRange_surjective (clients order : Registry) (h : order.Perm clients) :
    ∃ seed, mapRange seed clients = order := by
  have hm : order ∈ List.permutations' clients := List.mem_permutations'.mpr h
  obtain ⟨i, hi, hget⟩ := List.getElem_of_mem hm
  refine ⟨i, ?_⟩
  unfold mapRange
  rw [Nat.mod_eq_of_lt hi, List.getD_eq_getElem _ _ hi]
  exact hget

theorem findClientLoop_sound (order : List (GoString × Client)) (gameMode : Byte)
    (clientID : GoString) :
    (∃ e ∈ order, e.2.GameMode = gameMode ∧ e.2.ID ≠ clientID
        ∧ findClientLoop order gameMode clientID = (e.2.Address, e.2.ID))
    ∨ ((∀ e ∈ order, ¬ (e.2.GameMode = gameMode ∧ e.2.ID ≠ clientID))
        ∧ findClientLoop order gameMode clientID = ([], [])) := by
  induction order with
  | nil => right; simp [findClientLoop]
  | cons e rest ih =>
    obtain ⟨k, c⟩ := e
    by_cases hc : c.GameMode = gameMode ∧ c.ID ≠ clientID
    · left
      refine ⟨(k, c), List.mem_cons_self _ _, hc.1, hc.2, ?_⟩
      simp only [findClientLoop, hc, ne_eq, not_false_eq_true, and_self, if_true]
    · have hstep : findClientLoop ((k, c) :: rest) gameMode clientID
          = findClientLoop rest gameMode clientID := by
        simp only [findClientLoop]
        rw [if_neg hc]
      rw [hstep]
      rcases ih with ⟨e, he, h1, h2, h3⟩ | ⟨hnone, h3⟩
      · exact Or.inl ⟨e, List.mem_cons_of_mem _ he, h1, h2, h3⟩
      · right
        refine ⟨?_, h3⟩
        intro e he
        rcases List.mem_cons.mp he with h | h
        · rw [h]; exact hc
        · exact hnone e h

theorem findClient_sound (clients : Registry) (gameMode : Byte) (clientID : GoString)
    (seed : Nat) :
    (∃ e ∈ clients, e.2.GameMode = gameMode ∧ e.2.ID ≠ clientID
        ∧ findClientAddressByGameMode clients gameMode clientID seed = (e.2.Address, e.2.ID))
    ∨ ((∀ e ∈ clients, ¬ (e.2.GameMode = gameMode ∧ e.2.ID ≠ clientID))
        ∧ findClientAddressByGameMode clients gameMode clientID seed = ([], [])) := by
  have hp := mapRange_perm seed clients
  rcases findClientLoop_sound (mapRange seed clients) gameMode clientID with
    ⟨e, he, h1, h2, h3⟩ | ⟨hnone, h3⟩
  · exact Or.inl ⟨e, hp.mem_iff.mp he, h1, h2, h3⟩
  · exact Or.inr ⟨fun e he => hnone e (hp.mem_iff.mpr he), h3⟩

theorem three_ids_distinct (clients : Registry) (A B C : Client) (hkeys : KeyedByID clients)
    (hp : clients.Perm [(A.ID, A), (B.ID, B), (C.ID, C)]) :
    A.ID ≠ B.ID ∧ A.ID ≠ C.ID ∧ B.ID ≠ C.ID := by
  have hk : (mapKeys clients).Perm [A.ID, B.ID, C.ID] := by
    have := hp.map Prod.fst
    simpa [mapKeys] using this
  have hn : [A.ID, B.ID, C.ID].Nodup := hk.nodup_iff.mp hkeys.1
  simp only [List.nodup_cons, List.mem_cons, List.mem_singleton, not_or, List.not_mem_nil,
    not_false_eq_true, List.nodup_nil, and_true] at hn
  exact ⟨hn.1.1, hn.1.2, hn.2⟩

/-- The only possible answer: if exactly one record `p` qualifies, it is returned. -/
theorem findClient_unique (clients : Registry) (gameMode : Byte) (clientID : GoString)
    (seed : Nat) (p : GoString × Client) (hp : p ∈ clients)
    (hq : p.2.GameMode = gameMode ∧ p.2.ID ≠ clientID)
    (hu : ∀ e ∈ clients, e.2.GameMode = gameMode ∧ e.2.ID ≠ clientID → e = p) :
    findClientAddressByGameMode clients gameMode clientID seed = (p.2.Address, p.2.ID) := by
  rcases findClient_sound clients gameMode clientID seed with ⟨e, he, h1, h2, h3⟩ | ⟨hnone, _⟩
  · rw [h3, hu e he ⟨h1, h2⟩]
  · exact absurd hq (hnone p hp)

theorem caseHello_facts (env : Env) (s : Session) (clients : Registry) :
    StepFacts s.client1Address s.client1 s.conn.written env clients (caseHello env s clients) := by
  unfold caseHello connWrite
  cases env.writeFails
  · exact ⟨rfl, Or.inl rfl, Or.inr ⟨rfl, fun _ => rfl⟩⟩
  · refine ⟨rfl, Or.inl rfl, Or.inr ⟨rfl, fun h => ?_⟩⟩
    simp at h

theorem caseToken_facts (env : Env) (s : Session) (clients : Registry) :
    StepFacts s.client1Address s.client1 s.conn.written env clients (caseToken env s clients) := by
  have hw := (checkHeaders_frame s.conn s.client1Address env.arrived).1
  cases hc : checkHeaders s.conn s.client1Address env.arrived with
  | mk r c =>
    rw [hc] at hw
    simp only at hw
    cases r with
    | error e =>
      simp only [caseToken, hc]
      exact ⟨rfl, Or.inl rfl, Or.inl ⟨rfl, hw⟩⟩
    | ok header =>
      have hlen := (checkHeaders_ok _ _ _ _ _ hc).2
      simp only [caseToken, hc]
      by_cases hid : header.clientID = s.client1
      · cases ht : clientHasToken clients s.client1
        · simp only [hid, ne_eq, not_true_eq_false, if_false, ht, Bool.false_eq_true]
          refine ⟨rfl, Or.inr ⟨⟨header.GameMode, rfl⟩, ?_, ht, rfl⟩, Or.inl ⟨rfl, hw⟩⟩
          rw [← hid]; exact hlen
        · simp only [hid, ne_eq, not_true_eq_false, if_false, ht, if_true]
          exact ⟨rfl, Or.inl rfl, Or.inl ⟨rfl, hw⟩⟩
      · simp only [ne_eq, hid, not_false_eq_true, if_true]
        exact ⟨rfl, Or.inl rfl, Or.inl ⟨rfl, hw⟩⟩

theorem caseMatch_facts (env : Env) (s : Session) (clients : Registry) :
    StepFacts s.client1Address s.client1 s.conn.written env clients (caseMatch env s clients) := by
  have hw := (checkHeaders_frame s.conn s.client1Address env.arrived).1
  cases hc : checkHeaders s.conn s.client1Address env.arrived with
  | mk r c =>
    rw [hc] at hw
    simp only at hw
    cases r with
    | error e =>
      simp only [caseMatch, hc]
      exact ⟨rfl, Or.inl rfl, Or.inl ⟨rfl, hw⟩⟩
    | ok header =>
      simp only [caseMatch, hc]
      exact ⟨rfl, Or.inl rfl, Or.inl ⟨rfl, hw⟩⟩

theorem dispatch_facts (env : Env) (s : Session) (clients : Registry) (message : List Byte) :
    StepFacts s.client1Address s.client1 s.conn.written env clients
      (dispatch env s clients message) := by
  unfold dispatch
  split
  · exact caseHello_facts env s clients
  · split
    · exact caseToken_facts env s clients
    · split
      · exact caseMatch_facts env s clients
      · exact ⟨rfl, Or.inl rfl, Or.inl ⟨rfl, rfl⟩⟩

theorem loopBody_facts (env : Env) (s : Session) (clients : Registry) :
    StepFacts s.client1Address s.client1 s.conn.written env clients (loopBody env s clients) := by
  have hb := (binaryReadInt32_frame s.conn).1
  cases hr : binaryReadInt32 s.conn with
  | mk r c =>
    rw [hr] at hb
    simp only at hb
    cases r with
    | error e =>
      simp only [loopBody, hr]
      split <;> exact ⟨rfl, Or.inl rfl, Or.inl ⟨rfl, hb⟩⟩
    | ok messageLength =>
      simp only [loopBody, hr]
      split
      · exact ⟨rfl, Or.inl rfl, Or.inl ⟨rfl, hb⟩⟩
      · have hf := (readFull_frame c messageLength.toNat).1
        cases hm : readFull c messageLength.toNat with
        | mk r' c' =>
          rw [hm] at hf
          simp only at hf
          cases r' with
          | error e => exact ⟨rfl, Or.inl rfl, Or.inl ⟨rfl, hf.trans hb⟩⟩
          | ok message =>
            have := dispatch_facts env { s with conn := c' } clients message
            simp only [hf.trans hb] at this
            exact this

theorem mem_mapSet_weak (clients : Registry) (k : GoString) (c : Client)
    (e : GoString × Client) (h : e ∈ mapSet clients k c) : e = (k, c) ∨ e ∈ clients := by
  induction clients with
  | nil => simp [mapSet] at h; exact Or.inl h
  | cons e' rest ih =>
    obtain ⟨k', c'⟩ := e'
    by_cases hk : k' = k
    · simp only [mapSet, hk, if_true, List.mem_cons] at h
      rcases h with h | h
      · exact Or.inl h
      · exact Or.inr (List.mem_cons_of_mem _ h)
    · simp only [mapSet, hk, if_false, List.mem_cons] at h
      rcases h with h | h
      · exact Or.inr (h ▸ List.mem_cons_self _ _)
      · rcases ih h with h' | h'
        · exact Or.inl h'
        · exact Or.inr (List.mem_cons_of_mem _ h')

/-- The identifier of a reachable session is empty or a UUID generated for this
session and written to its connection; its address is the connection's. -/
theorem sessionReach_inv (conn : Conn) (envs : List Env) (s : Session)
    (h : SessionReach conn envs s) :
    s.client1Address = conn.RemoteAddr
    ∧ (s.client1 = [] ∨ ((∃ env ∈ envs, env.uuid = s.client1) ∧ s.client1 ∈ s.conn.written)) := by
  induction h with
  | start => exact ⟨rfl, Or.inl rfl⟩
  | step envs s env clients _ hloop ih =>
    obtain ⟨haddr, _, hid⟩ := loopBody_facts env s clients
    refine ⟨haddr.trans ih.1, ?_⟩
    rcases hid with ⟨h1, h2⟩ | ⟨h1, h2⟩
    · rcases ih.2 with h0 | ⟨⟨e, he, hu⟩, hw⟩
      · exact Or.inl (h1.trans h0)
      · right
        rw [h1, h2]
        exact ⟨⟨e, List.mem_append_left _ he, hu⟩, hw⟩
    · right
      rw [h1, h2 hloop]
      exact ⟨⟨env, by simp, rfl⟩, by simp⟩

theorem loopBody_token (env : Env) (s : Session) (clients : Registry) (rest : List Byte)
    (hin : s.conn.incoming = sendMessageWithLength (ascii "token") ++ rest) :
    loopBody env s clients
      = caseToken env { s with conn := { s.conn with incoming := rest } } clients := by
  rw [loopBody_of_frame env s clients (ascii "token") rest (by decide) hin]
  rfl

theorem loopBody_hello (env : Env) (s : Session) (clients : Registry) (rest : List Byte)
    (hin : s.conn.incoming = sendMessageWithLength (ascii "hello") ++ rest)
    (hw : env.writeFails = false) :
    loopBody env s clients
      = { control := .loop,
          session := { s with
            conn := { s.conn with incoming := rest, written := s.conn.written ++ [env.uuid] },
            client1 := env.uuid },
          clients := clients,
          log := [.receivedHello s.client1Address] } := by
  rw [loopBody_of_frame env s clients (ascii "hello") rest (by decide) hin]
  have hd : dispatch env { s with conn := { s.conn with incoming := rest } } clients (ascii "hello")
      = caseHello env { s with conn := { s.conn with incoming := rest } } clients := rfl
  rw [hd]
  simp only [caseHello, connWrite, hw, Bool.false_eq_true, if_false]

theorem loopBody_match (env : Env) (s : Session) (clients : Registry) (rest : List Byte)
    (hin : s.conn.incoming = sendMessageWithLength (ascii "match") ++ rest) :
    loopBody env s clients
      = caseMatch env { s with conn := { s.conn with incoming := rest } } clients := by
  rw [loopBody_of_frame env s clients (ascii "match") rest (by decide) hin]
  rfl

theorem mapGet?_isSome_iff (clients : Registry) (k : GoString) :
    (mapGet? clients k).isSome = true ↔ k ∈ mapKeys clients := by
  induction clients with
  | nil => simp [mapGet?, mapKeys]
  | cons e rest ih =>
    obtain ⟨k', c'⟩ := e
    by_cases hk : k' = k
    · simp [mapGet?, mapKeys, hk]
    · have hk' : ¬ k = k' := fun h => hk h.symm
      simp only [mapGet?, hk, if_false, ih, mapKeys, List.map_cons, List.mem_cons, hk', false_or]

/-- The entries of a map stored under the key `k`. -/
theorem entries_of_key_length (clients : Registry) (k : GoString)
    (hkeys : (mapKeys clients).Nodup) (hk : k ∈ mapKeys clients) :
    (clients.filter (fun e => decide (e.1 = k))).length = 1 := by
  induction clients with
  | nil => simp [mapKeys] at hk
  | cons e rest ih =>
    obtain ⟨k', c'⟩ := e
    simp only [mapKeys, List.map_cons, List.nodup_cons, List.mem_cons] at hkeys hk
    by_cases h : k' = k
    · subst h
      have hnone : rest.filter (fun e => decide (e.1 = k')) = [] := by
        rw [List.filter_eq_nil_iff]
        intro e he hek
        simp only [decide_eq_true_eq] at hek
        exact hkeys.1 (hek ▸ List.mem_map_of_mem Prod.fst he)
      simp [List.filter_cons, hnone]
    · have hk' : k ∈ mapKeys rest := by
        rcases hk with hk | hk
        · exact absurd hk.symm h
        · exact hk
      simp only [List.filter_cons, h, decide_False, Bool.false_eq_true, if_false]
      exact ih hkeys.2 hk'

theorem loopBody_token_ok (env : Env) (s : Session) (clients : Registry) (rest : List Byte)
    (GameMode : Byte)
    (hin : s.conn.incoming
      = sendMessageWithLength (ascii "token")
        ++ (sendHeader { Version := VERSION, GameMode := GameMode, clientID := s.client1 } ++ rest))
    (hlen : s.client1.length = 36) (harr : 40 ≤ env.arrived)
    (hhas : clientHasToken clients s.client1 = false) :
    loopBody env s clients
      = { control := .loop,
          session := { s with conn := { s.conn with incoming := rest } },
          clients := createClientToken clients s.client1Address s.client1 GameMode,
          log := [.receivedToken s.client1Address, .tokenCreated s.client1] } := by
  rw [loopBody_token env s clients _ hin]
  have hc := checkHeaders_sendHeader GameMode s.client1
    { s.conn with incoming := sendHeader ⟨VERSION, GameMode, s.client1⟩ ++ rest }
    s.client1Address env.arrived rest hlen harr rfl
  simp only [caseToken, hc, ne_eq, not_true_eq_false, if_false, hhas, Bool.false_eq_true]

theorem loopBody_match_ok (env : Env) (s : Session) (clients : Registry) (rest : List Byte)
    (GameMode : Byte) (clientID : GoString)
    (hin : s.conn.incoming
      = sendMessageWithLength (ascii "match")
        ++ (sendHeader { Version := VERSION, GameMode := GameMode, clientID := clientID } ++ rest))
    (hlen : clientID.length = 36) (harr : 40 ≤ env.arrived)
    (hhas : clientHasToken clients s.client1 = true) :
    loopBody env s clients
      = { control := .loop,
          session := { s with conn := { s.conn with incoming := rest } },
          clients := clients,
          log := [Log.receivedMatch s.client1Address,
                  Log.matchRequest s.client1Address GameMode clientID]
                 ++ matchLog env s.client1Address s.client1 clients } := by
  rw [loopBody_match env s clients _ hin]
  have hc := checkHeaders_sendHeader GameMode clientID
    { s.conn with incoming := sendHeader ⟨VERSION, GameMode, clientID⟩ ++ rest }
    s.client1Address env.arrived rest hlen harr rfl
  simp only [caseMatch, hc, hhas, if_true]

theorem findAvailableGameServer_eq_nil_iff (gameMode : Byte) :
    findAvailableGameServer gameMode = [] ↔ gameMode ≠ 0 ∧ gameMode ≠ 1 ∧ gameMode ≠ 2 := by
  have h0 : findAvailableGameServer 0 ≠ [] := by decide
  have h1 : findAvailableGameServer 1 ≠ [] := by decide
  have h2 : findAvailableGameServer 2 ≠ [] := by decide
  constructor
  · intro h
    refine ⟨?_, ?_, ?_⟩ <;> intro hg <;> rw [hg] at h
    · exact h0 h
    · exact h1 h
    · exact h2 h
  · rintro ⟨g0, g1, g2⟩
    have e0 : ¬ (0 : Byte) = gameMode := fun h => g0 h.symm
    have e1 : ¬ (1 : Byte) = gameMode := fun h => g1 h.symm
    have e2 : ¬ (2 : Byte) = gameMode := fun h => g2 h.symm
    simp only [findAvailableGameServer, servers, findServerLoop, e0, e1, e2, if_false]

theorem readFull_incoming (conn : Conn) (n : Nat) :
    (readFull conn n).2.incoming.length ≤ conn.incoming.length
    ∧ (∀ bs, (readFull conn n).1 = .ok bs →
        (readFull conn n).2.incoming.length + n = conn.incoming.length) := by
  unfold readFull
  split
  · refine ⟨by simp, fun _ _ => ?_⟩
    simp only [List.length_drop]
    omega
  · refine ⟨by simp, fun bs h => ?_⟩
    cases h

theorem binaryReadInt32_incoming (conn : Conn) (v : Int)
    (h : (binaryReadInt32 conn).1 = .ok v) :
    (binaryReadInt32 conn).2.incoming.length + 4 = conn.incoming.length := by
  have hr := (readFull_incoming conn 4).2
  unfold binaryReadInt32 at h ⊢
  split at h <;> rename_i heq
  · rw [heq] at hr
    exact hr _ rfl
  · cases h
  · cases h

theorem checkHeaders_incoming (conn : Conn) (addr : GoString) (arrived : Nat) :
    (checkHeaders conn addr arrived).2.incoming.length ≤ conn.incoming.length := by
  have hc : (connRead conn 40 arrived).2.incoming.length ≤ conn.incoming.length := by
    unfold connRead
    split
    · exact le_refl _
    · simp
  cases hq : connRead conn 40 arrived with
  | mk r c =>
    rw [hq] at hc
    cases r with
    | error e =>
      simp only [checkHeaders, makeBytes, List.length_replicate, hq]
      split <;> exact hc
    | ok data =>
      rw [checkHeaders_of_read conn c addr arrived data hq]
      split
      · exact hc
      · split <;> exact hc

theorem dispatch_incoming (env : Env) (s : Session) (clients : Registry) (message : List Byte) :
    (dispatch env s clients message).session.conn.incoming.length ≤ s.conn.incoming.length := by
  have hh := checkHeaders_incoming s.conn s.client1Address env.arrived
  unfold dispatch
  split
  · unfold caseHello connWrite
    cases env.writeFails <;> exact le_refl _
  · split
    · unfold caseToken
      cases hq : checkHeaders s.conn s.client1Address env.arrived with
      | mk r c =>
        rw [hq] at hh
        cases r with
        | error e => exact hh
        | ok header =>
          simp only
          split
          · exact hh
          · split <;> exact hh
    · split
      · unfold caseMatch
        cases hq : checkHeaders s.conn s.client1Address env.arrived with
        | mk r c =>
          rw [hq] at hh
          cases r with
          | error e => exact hh
          | ok header => exact hh
      · exact le_refl _

/-- An iteration that goes on to the next one has consumed a length field. -/
theorem loopBody_consumes (env : Env) (s : Session) (clients : Registry)
    (h : (loopBody env s clients).control = Control.loop) :
    (loopBody env s clients).session.conn.incoming.length + 4 ≤ s.conn.incoming.length := by
  cases hr : binaryReadInt32 s.conn with
  | mk r c =>
    cases r with
    | error e =>
      simp only [loopBody, hr] at h
      split at h <;> cases h
    | ok messageLength =>
      have h4 := binaryReadInt32_incoming s.conn messageLength (by rw [hr])
      rw [hr] at h4
      simp only at h4
      simp only [loopBody, hr] at h ⊢
      split at h
      · cases h
      · rename_i hneg
        simp only [hneg, if_false]
        have hf := (readFull_incoming c messageLength.toNat).1
        cases hm : readFull c messageLength.toNat with
        | mk r' c' =>
          rw [hm] at hf h
          simp only at hf
          cases r' with
          | error e => cases h
          | ok message =>
            have hd := dispatch_incoming env { s with conn := c' } clients message
            simp only at hd ⊢
            omega

theorem handleLoop_isSome (fuel : Nat) (envs : Nat → Env) (s : Session) (clients : Registry)
    (log : List Log) (h : s.conn.incoming.length < 4 * fuel) :
    (handleLoop fuel envs s clients log).isSome = true := by
  induction fuel generalizing envs s clients log with
  | zero => omega
  | succ fuel ih =>
    unfold handleLoop
    simp only
    cases hc : (loopBody (envs 0) s clients).control with
    | loop =>
      simp only
      apply ih
      have := loopBody_consumes (envs 0) s clients hc
      omega
    | exit => rfl
    | crash => rfl

/-- The fuel `handleConnection` gives its loop is enough: the handler always ends,
by a `return` or by a panic. -/
theorem handleConnection_isSome (envs : Nat → Env) (conn : Conn) (clients : Registry) :
    (handleConnection envs conn clients).isSome = true := by
  unfold handleConnection
  apply handleLoop_isSome
  show conn.incoming.length < 4 * (conn.incoming.length + 1)
  omega

theorem sendHeader_length (h : Header) : (sendHeader h).length = 40 := by
  rw [sendHeader_eq]
  simp only [List.length_append, List.length_take, List.length_replicate, List.length_cons,
    List.length_nil]
  omega

theorem sendHeader_slices (h : Header) :
    slice (sendHeader h) 0 3 = h.Version.take 3 ++ List.replicate (3 - h.Version.length) 0
    ∧ (sendHeader h).getD 3 0 = h.GameMode
    ∧ slice (sendHeader h) 4 40
        = h.clientID.take 36 ++ List.replicate (36 - h.clientID.length) 0 := by
  rw [sendHeader_eq]
  have hv : (h.Version.take 3 ++ List.replicate (3 - h.Version.length) (0 : Byte)).length = 3 := by
    simp; omega
  have hc : (h.clientID.take 36 ++ List.replicate (36 - h.clientID.length) (0 : Byte)).length
      = 36 := by
    simp; omega
  generalize h.Version.take 3 ++ List.replicate (3 - h.Version.length) (0 : Byte) = v at hv
  generalize h.clientID.take 36 ++ List.replicate (36 - h.clientID.length) (0 : Byte) = c at hc
  obtain ⟨a, b, d, rfl⟩ := List.length_eq_three.mp hv
  refine ⟨?_, ?_, ?_⟩
  · simp [slice]
  · simp
  · simp [slice, List.take_of_length_le, hc]

theorem sendHeader_clientVERSION (GameMode : Byte) (clientID : GoString) :
    sendHeader { Version := clientVERSION, GameMode := GameMode, clientID := clientID }
      = sendHeader { Version := VERSION, GameMode := GameMode, clientID := clientID } := by
  rw [sendHeader_eq, sendHeader_eq]
  rfl

theorem mapGet?_mapSet_self (clients : Registry) (k : GoString) (c : Client) :
    mapGet? (mapSet clients k c) k = some c := by
  induction clients with
  | nil => simp [mapSet, mapGet?]
  | cons e rest ih =>
    obtain ⟨k', c'⟩ := e
    by_cases hk : k' = k
    · simp [mapSet, mapGet?, hk]
    · simp [mapSet, mapGet?, hk, ih]

theorem mapGet?_mapSet_other (clients : Registry) (k k2 : GoString) (c : Client) (h : k2 ≠ k) :
    mapGet? (mapSet clients k c) k2 = mapGet? clients k2 := by
  induction clients with
  | nil =>
    have : ¬ k = k2 := fun e => h e.symm
    simp [mapSet, mapGet?, this]
  | cons e rest ih =>
    obtain ⟨k', c'⟩ := e
    by_cases hk : k' = k
    · have : ¬ k = k2 := fun e => h e.symm
      subst hk
      simp [mapSet, mapGet?, this]
    · by_cases hk2 : k' = k2
      · subst hk2
        simp [mapSet, mapGet?, h]
      · simp [mapSet, mapGet?, hk, hk2, ih]

theorem caseToken_has_token (env : Env) (s : Session) (clients : Registry)
    (hhas : clientHasToken clients s.client1 = true) :
    (caseToken env s clients).control = Control.exit
      ∧ (caseToken env s clients).clients = clients := by
  unfold caseToken
  cases checkHeaders s.conn s.client1Address env.arrived with
  | mk r c =>
    cases r with
    | error e => exact ⟨rfl, rfl⟩
    | ok header =>
      simp only
      split
      · exact ⟨rfl, rfl⟩
      · simp only [hhas, if_true, and_self]

theorem getInt32BE_negative (b1 b2 b3 : Byte) : getInt32BE 255 b1 b2 b3 < 0 := by
  have h1 := b1.isLt
  have h2 := b2.isLt
  have h3 := b3.isLt
  unfold getInt32BE int32
  have hv : ((255 : Byte).val : Nat) = 255 := rfl
  simp only [hv]
  split <;> omega

theorem loopBody_negative (env : Env) (s : Session) (clients : Registry) (conn' : Conn)
    (v : Int) (hr : binaryReadInt32 s.conn = (.ok v, conn')) (hv : v < 0) :
    loopBody env s clients
      = { control := .crash, session := { s with conn := conn' }, clients := clients,
          log := [] } := by
  simp only [loopBody, hr, hv, if_true]

theorem binaryReadInt32_cons (conn : Conn) (b0 b1 b2 b3 : Byte) (rest : List Byte)
    (h : conn.incoming = b0 :: b1 :: b2 :: b3 :: rest) :
    binaryReadInt32 conn = (.ok (getInt32BE b0 b1 b2 b3), { conn with incoming := rest }) := by
  simp [binaryReadInt32, readFull, h]

theorem loopBody_match_noToken (env : Env) (s : Session) (clients : Registry)
    (rest : List Byte) (header : Header) (conn' : Conn)
    (hhas : clientHasToken clients s.client1 = false)
    (hin : s.conn.incoming = sendMessageWithLength (ascii "match") ++ rest)
    (hc : checkHeaders { s.conn with incoming := rest } s.client1Address env.arrived
      = (.ok header, conn')) :
    loopBody env s clients
      = { control := .loop, session := { s with conn := conn' }, clients := clients,
          log := [.receivedMatch s.client1Address,
                  .matchRequest s.client1Address header.GameMode header.clientID,
                  .noToken s.client1] } := by
  rw [loopBody_match env s clients rest hin]
  simp only [caseMatch, hc, hhas, Bool.false_eq_true, if_false, List.cons_append, List.nil_append]

theorem caseToken_no_identifier (env : Env) (s : Session) (clients : Registry)
    (hid : s.client1 = []) :
    (caseToken env s clients).control = Control.exit
      ∧ (caseToken env s clients).clients = clients := by
  unfold caseToken
  cases hc : checkHeaders s.conn s.client1Address env.arrived with
  | mk r c =>
    cases r with
    | error e => exact ⟨rfl, rfl⟩
    | ok header =>
      have hlen := (checkHeaders_ok _ _ _ _ _ hc).2
      have hne : header.clientID ≠ s.client1 := by
        intro h; rw [h, hid] at hlen; simp at hlen
      simp only [hne, ne_eq, not_false_eq_true, if_true, and_self]

theorem loopBody_unknown (env : Env) (s : Session) (clients : Registry)
    (message rest : List Byte) (hlen : message.length < 2147483648)
    (h1 : message ≠ ascii "hello") (h2 : message ≠ ascii "token") (h3 : message ≠ ascii "match")
    (hin : s.conn.incoming = sendMessageWithLength message ++ rest) :
    loopBody env s clients
      = { control := .loop, session := { s with conn := { s.conn with incoming := rest } },
          clients := clients, log := [.unknownMessage s.client1Address message] } := by
  rw [loopBody_of_frame env s clients message rest hlen hin]
  simp only [dispatch, h1, h2, h3, if_false]

theorem loopBody_match_header_error (env : Env) (s : Session) (clients : Registry)
    (rest : List Byte) (err : HeaderError) (conn' : Conn)
    (hin : s.conn.incoming = sendMessageWithLength (ascii "match") ++ rest)
    (hc : checkHeaders { s.conn with incoming := rest } s.client1Address env.arrived
      = (.error err, conn')) :
    loopBody env s clients
      = { control := .exit, session := { s with conn := conn' }, clients := clients,
          log := [.receivedMatch s.client1Address, .headerError err] } := by
  rw [loopBody_match env s clients rest hin]
  simp only [caseMatch, hc]

theorem loopBody_token_registers (env : Env) (s : Session) (clients : Registry)
    (rest : List Byte) (header : Header) (conn' : Conn)
    (hin : s.conn.incoming = sendMessageWithLength (ascii "token") ++ rest)
    (hc : checkHeaders { s.conn with incoming := rest } s.client1Address env.arrived
      = (.ok header, conn'))
    (hid : header.clientID = s.client1) (hhas : clientHasToken clients s.client1 = false) :
    loopBody env s clients
      = { control := .loop, session := { s with conn := conn' },
          clients := createClientToken clients s.client1Address s.client1 header.GameMode,
          log := [.receivedToken s.client1Address, .tokenCreated s.client1] } := by
  rw [loopBody_token env s clients rest hin]
  simp only [caseToken, hc, hid, ne_eq, not_true_eq_false, if_false, hhas, Bool.false_eq_true]

theorem loopBody_match_searches (env : Env) (s : Session) (clients : Registry)
    (rest : List Byte) (header : Header) (conn' : Conn)
    (hin : s.conn.incoming = sendMessageWithLength (ascii "match") ++ rest)
    (hc : checkHeaders { s.conn with incoming := rest } s.client1Address env.arrived
      = (.ok header, conn'))
    (hhas : clientHasToken clients s.client1 = true) :
    loopBody env s clients
      = { control := .loop, session := { s with conn := conn' }, clients := clients,
          log := [Log.receivedMatch s.client1Address,
                  Log.matchRequest s.client1Address header.GameMode header.clientID]
                 ++ matchLog env s.client1Address s.client1 clients } := by
  rw [loopBody_match env s clients rest hin]
  simp only [caseMatch, hc, hhas, if_true]

theorem mapIndex_of_has (clients : Registry) (k : GoString)
    (hhas : clientHasToken clients k = true) :
    (k, mapIndex clients k) ∈ clients := by
  unfold clientHasToken at hhas
  cases hg : mapGet? clients k with
  | none => rw [hg] at hhas; cases hhas
  | some c =>
    have : mapIndex clients k = c := by simp [mapIndex, hg]
    rw [this]
    exact mapGet?_mem clients k c hg

theorem matchLog_not_found (env : Env) (client1Address client1 : GoString) (clients : Registry)
    (hkeys : KeyedByID clients) (hhas : clientHasToken clients client1 = true)
    (halone : ∀ e ∈ clients,
      e.2.GameMode = (mapIndex clients client1).GameMode → e.1 = client1) :
    findClientAddressByGameMode clients (mapIndex clients client1).GameMode
        (mapIndex clients client1).ID env.findSeed = ([], [])
    ∧ matchLog env client1Address client1 clients
        = [Log.findingMatch client1, Log.currentClients (ListAllTokens clients env.listSeed),
           Log.cannotFind client1 (mapIndex clients client1).GameMode] := by
  have hmem := mapIndex_of_has clients client1 hhas
  have hID : (mapIndex clients client1).ID = client1 := hkeys.2 _ hmem
  have hfind : findClientAddressByGameMode clients (mapIndex clients client1).GameMode
      (mapIndex clients client1).ID env.findSeed = ([], []) := by
    rcases findClient_sound clients (mapIndex clients client1).GameMode
      (mapIndex clients client1).ID env.findSeed with ⟨e, he, h1, h2, _⟩ | ⟨_, h3⟩
    · exfalso
      apply h2
      rw [hID, hkeys.2 e he]
      exact halone e he h1
    · exact h3
  refine ⟨hfind, ?_⟩
  simp only [matchLog, hfind, ne_eq, not_true_eq_false, if_false, List.cons_append,
    List.nil_append]

theorem matchLog_found (env : Env) (client1Address client1 : GoString) (clients : Registry)
    (client2Address client2 : GoString) (hne : client2 ≠ [])
    (hfind : findClientAddressByGameMode clients (mapIndex clients client1).GameMode
      (mapIndex clients client1).ID env.findSeed = (client2Address, client2)) :
    matchLog env client1Address client1 clients
      = [Log.findingMatch client1, Log.currentClients (ListAllTokens clients env.listSeed),
         Log.foundClient client1 (mapIndex clients client1).GameMode client2]
        ++ if findAvailableGameServer (mapIndex clients client1).GameMode ≠ [] then
            [Log.matchCreated (findAvailableGameServer (mapIndex clients client1).GameMode)
              client1 ⟨client1Address, client2Address⟩ client2]
          else [] := by
  simp only [matchLog, hfind, ne_eq, hne, not_false_eq_true, if_true, createMatch,
    List.cons_append, List.nil_append]

/-- After another client registers in the mode of a client that was alone in it, the
search of the first client returns the newcomer. -/
theorem find_after_register (clients : Registry) (client1 addr2 id2 : GoString) (seed : Nat)
    (hkeys : KeyedByID clients) (hhas : clientHasToken clients client1 = true)
    (halone : ∀ e ∈ clients,
      e.2.GameMode = (mapIndex clients client1).GameMode → e.1 = client1)
    (hnew : clientHasToken clients id2 = false) :
    mapIndex (createClientToken clients addr2 id2 (mapIndex clients client1).GameMode) client1
      = mapIndex clients client1
    ∧ findClientAddressByGameMode
        (createClientToken clients addr2 id2 (mapIndex clients client1).GameMode)
        (mapIndex clients client1).GameMode (mapIndex clients client1).ID seed
        = (addr2, id2) := by
  have hmem := mapIndex_of_has clients client1 hhas
  have hID : (mapIndex clients client1).ID = client1 := hkeys.2 _ hmem
  have hdiff : client1 ≠ id2 := by
    intro h; rw [h, hnew] at hhas; cases hhas
  have hidx : mapIndex (createClientToken clients addr2 id2 (mapIndex clients client1).GameMode)
      client1 = mapIndex clients client1 := by
    unfold mapIndex createClientToken
    rw [mapGet?_mapSet_other _ _ _ _ hdiff]
  refine ⟨hidx, ?_⟩
  have hp : (id2, (⟨addr2, id2, (mapIndex clients client1).GameMode⟩ : Client))
      ∈ createClientToken clients addr2 id2 (mapIndex clients client1).GameMode :=
    mapGet?_mem _ _ _ (mapGet?_mapSet_self _ _ _)
  refine findClient_unique _ _ _ seed _ hp ⟨rfl, ?_⟩ ?_
  · rw [hID]; exact fun h => hdiff h.symm
  · intro e he hq
    rcases mem_mapSet _ _ _ _ hkeys.1 he with h | h
    · exact h
    · exfalso
      apply hq.2
      rw [hID, hkeys.2 e h.1]
      exact halone e h.1 hq.1

/-- In a reachable map the records are stored under their own ID and every key has 36
bytes. -/
theorem registryReach_inv (clients : Registry) (h : RegistryReach clients) :
    KeyedByID clients ∧ ∀ k ∈ mapKeys clients, k.length = 36 := by
  induction h with
  | empty => exact ⟨keyedByID_nil, by simp [mapKeys]⟩
  | step clients conn envs s env _ _ ih =>
    obtain ⟨_, hmap, _⟩ := loopBody_facts env s clients
    rcases hmap with h | ⟨⟨g, hg⟩, hlen, _, _⟩
    · rw [h]; exact ih
    · rw [hg]
      refine ⟨keyedByID_createClientToken _ _ _ _ ih.1, ?_⟩
      intro k hk
      unfold createClientToken at hk
      rw [mapKeys_mapSet] at hk
      split at hk
      · exact ih.2 k hk
      · rcases List.mem_append.mp hk with h | h
        · exact ih.2 k h
        · rw [List.mem_singleton.mp h]; exact hlen

/-! ## The claims -/

/-- C1 (header round-trip): for the version "003", any game mode and any client ID
of 36 bytes, `checkHeaders`, reading all 40 bytes that `sendHeader` wrote, succeeds
and returns the header that was sent, leaving the rest of the stream untouched. -/
theorem header_round_trip (GameMode : Byte) (clientID : GoString) (conn : Conn)
    (client1Address : GoString) (arrived : Nat) (rest : List Byte)
    (hid : clientID.length = 36) (harr : 40 ≤ arrived)
    (hin : conn.incoming
      = sendHeader { Version := VERSION, GameMode := GameMode, clientID := clientID } ++ rest) :
    checkHeaders conn client1Address arrived
      = (.ok { Version := VERSION, GameMode := GameMode, clientID := clientID },
          { conn with incoming := rest }) :=
  checkHeaders_sendHeader GameMode clientID conn client1Address arrived rest hid harr hin

theorem header_round_trip_witness :
    checkHeaders (connOf addrA (sendHeader ⟨VERSION, 1, uuidA⟩ ++ [5])) addrA 40
      = (.ok ⟨VERSION, 1, uuidA⟩, connOf addrA [5]) :=
  header_round_trip 1 uuidA (connOf addrA (sendHeader ⟨VERSION, 1, uuidA⟩ ++ [5])) addrA 40 [5]
    (by decide) (by decide) rfl

/-- C2 (framing round-trip): when the incoming stream starts with the bytes
`sendMessageWithLength` writes for a message of fewer than 2^31 bytes, one iteration
of the server loop reads the length and the message, hands exactly that message to
the `switch`, and leaves exactly the bytes after the frame on the connection. -/
theorem framing_round_trip (env : Env) (s : Session) (clients : Registry)
    (message rest : List Byte) (hlen : message.length < 2147483648)
    (hin : s.conn.incoming = sendMessageWithLength message ++ rest) :
    loopBody env s clients
      = dispatch env { s with conn := { s.conn with incoming := rest } } clients message :=
  loopBody_of_frame env s clients message rest hlen hin

theorem framing_round_trip_witness :
    loopBody (envOf uuidA)
        (newSession (connOf addrA (sendMessageWithLength (ascii "hello") ++ [7]))) []
      = dispatch (envOf uuidA) (newSession (connOf addrA [7])) [] (ascii "hello") :=
  framing_round_trip (envOf uuidA)
    (newSession (connOf addrA (sendMessageWithLength (ascii "hello") ++ [7]))) []
    (ascii "hello") [7] (by decide) rfl

/-- C3 (header decoding): `checkHeaders` succeeds exactly when its `conn.Read`
returned 40 bytes whose first three are "003"; it fails when fewer than 40 bytes were
there or had arrived, fails with the invalid-header error on a short read, fails with
the version-mismatch error on another version, and otherwise returns the header with
`GameMode` byte 3 and `clientID` bytes 4..39. -/
theorem checkHeaders_succeeds_iff (conn : Conn) (client1Address : GoString) (arrived : Nat) :
    ((∃ header, (checkHeaders conn client1Address arrived).1 = .ok header) ↔
      ∃ data, (connRead conn 40 arrived).1 = .ok data ∧ data.length = 40 ∧ data.take 3 = VERSION)
    ∧ ((conn.incoming.length < 40 ∨ arrived < 40) →
        ∃ err, (checkHeaders conn client1Address arrived).1 = .error err)
    ∧ (∀ data, (connRead conn 40 arrived).1 = .ok data → data.length < 40 →
        (checkHeaders conn client1Address arrived).1 = .error (.invalidHeader client1Address))
    ∧ (∀ data, (connRead conn 40 arrived).1 = .ok data → data.length = 40 →
        data.take 3 ≠ VERSION →
        (checkHeaders conn client1Address arrived).1
          = .error (.versionMismatch (data.take 3) VERSION))
    ∧ (∀ data, (connRead conn 40 arrived).1 = .ok data → data.length = 40 →
        data.take 3 = VERSION →
        (checkHeaders conn client1Address arrived).1
          = .ok { Version := VERSION, GameMode := data.getD 3 0, clientID := data.drop 4 }) := by
  have key : ∀ data, (connRead conn 40 arrived).1 = .ok data →
      (checkHeaders conn client1Address arrived).1 =
        if data.length ≠ 40 then .error (.invalidHeader client1Address)
        else if data.take 3 ≠ VERSION then .error (.versionMismatch (data.take 3) VERSION)
        else .ok { Version := data.take 3, GameMode := data.getD 3 0, clientID := data.drop 4 } := by
    intro data hd
    have hp : connRead conn 40 arrived = (.ok data, (connRead conn 40 arrived).2) := by
      rw [← hd]
    rw [checkHeaders_of_read conn _ client1Address arrived data hp]
    split
    · rfl
    · split <;> rfl
  have herr : ∀ e, (connRead conn 40 arrived).1 = .error e →
      ∃ err, (checkHeaders conn client1Address arrived).1 = .error err := by
    intro e he
    simp only [checkHeaders, makeBytes, List.length_replicate]
    cases hc : connRead conn 40 arrived with
    | mk r c =>
      rw [hc] at he
      simp only at he
      subst he
      simp only
      split
      · exact ⟨_, rfl⟩
      · exact ⟨_, rfl⟩
  refine ⟨⟨?_, ?_⟩, ?_, ?_, ?_, ?_⟩
  · rintro ⟨header, hh⟩
    cases hr : (connRead conn 40 arrived).1 with
    | error e =>
      obtain ⟨err, he⟩ := herr e hr
      rw [he] at hh; cases hh
    | ok data =>
      refine ⟨data, rfl, ?_⟩
      rw [key data hr] at hh
      by_cases h40 : data.length = 40
      · by_cases hv : data.take 3 = VERSION
        · exact ⟨h40, hv⟩
        · simp [h40, hv] at hh
      · simp [h40] at hh
  · rintro ⟨data, hr, h40, hv⟩
    rw [key data hr]
    simp [h40, hv]
  · intro hshort
    cases hr : (connRead conn 40 arrived).1 with
    | error e => exact herr e hr
    | ok data =>
      have hb := connRead_length_le conn 40 arrived data hr
      rw [key data hr]
      have : data.length ≠ 40 := by omega
      simp [this]
  · intro data hr hlt
    rw [key data hr]
    have : data.length ≠ 40 := by omega
    simp [this]
  · intro data hr h40 hv
    rw [key data hr]
    simp [h40, hv]
  · intro data hr h40 hv
    rw [key data hr]
    simp [h40, hv]

theorem checkHeaders_succeeds_iff_witness :
    (checkHeaders ⟨[], [48, 48, 51, 2, 9], .closed, []⟩ [1] 40).1 = .error (.invalidHeader [1])
    ∧ (checkHeaders ⟨[], [48, 48, 52, 2] ++ List.replicate 36 7, .closed, []⟩ [1] 40).1
        = .error (.versionMismatch [48, 48, 52] VERSION)
    ∧ (checkHeaders ⟨[], [48, 48, 51, 2] ++ List.replicate 36 7, .closed, []⟩ [1] 40).1
        = .ok { Version := VERSION, GameMode := 2, clientID := List.replicate 36 7 } := by
  have h1 := (checkHeaders_succeeds_iff ⟨[], [48, 48, 51, 2, 9], .closed, []⟩ [1] 40).2.2.1
      [48, 48, 51, 2, 9] (by decide) (by decide)
  have h2 := (checkHeaders_succeeds_iff
      ⟨[], [48, 48, 52, 2] ++ List.replicate 36 7, .closed, []⟩ [1] 40).2.2.2.1
      ([48, 48, 52, 2] ++ List.replicate 36 7) (by decide) (by decide) (by decide)
  have h3 := (checkHeaders_succeeds_iff
      ⟨[], [48, 48, 51, 2] ++ List.replicate 36 7, .closed, []⟩ [1] 40).2.2.2.2
      ([48, 48, 51, 2] ++ List.replicate 36 7) (by decide) (by decide) (by decide)
  refine ⟨h1, ?_, ?_⟩
  · rw [h2]; decide
  · rw [h3]; decide

/-- C4 (identity check on registration): a "token" message whose decoded header
carries a client ID other than the session's identifier makes the iteration return
and leaves the map unchanged; and in every reachable session state, each entry of the
map after an iteration was there before or is stored under the session's identifier,
which is a UUID generated for this session and written to its connection, with the
connection's address. -/
theorem identity_check (env : Env) (s : Session) (clients : Registry) :
    (∀ rest header conn',
        s.conn.incoming = sendMessageWithLength (ascii "token") ++ rest →
        checkHeaders { s.conn with incoming := rest } s.client1Address env.arrived
          = (.ok header, conn') →
        header.clientID ≠ s.client1 →
        (loopBody env s clients).control = Control.exit
          ∧ (loopBody env s clients).clients = clients)
    ∧ (∀ conn envs, SessionReach conn envs s →
        ∀ e ∈ (loopBody env s clients).clients,
          e ∈ clients
          ∨ (e.1 = s.client1 ∧ e.2.ID = s.client1 ∧ e.2.Address = conn.RemoteAddr
              ∧ (∃ env' ∈ envs, env'.uuid = e.1) ∧ e.1 ∈ s.conn.written)) := by
  constructor
  · intro rest header conn' hin hc hne
    rw [loopBody_token env s clients rest hin]
    simp only [caseToken, hc, hne, ne_eq, not_false_eq_true, if_true, and_self]
  · intro conn envs hreach e he
    obtain ⟨haddr, hinv⟩ := sessionReach_inv conn envs s hreach
    obtain ⟨_, hmap, _⟩ := loopBody_facts env s clients
    rcases hmap with h | ⟨⟨g, hg⟩, hlen, _, _⟩
    · rw [h] at he; exact Or.inl he
    · rw [hg] at he
      rcases mem_mapSet_weak _ _ _ _ he with h | h
      · right
        have hne : s.client1 ≠ [] := by
          intro h0; rw [h0] at hlen; simp at hlen
        rcases hinv with h0 | ⟨hu, hw⟩
        · exact absurd h0 hne
        · rw [h]
          exact ⟨rfl, rfl, haddr, hu, hw⟩
      · exact Or.inl h

theorem identity_check_witness :
    ((loopBody (envOf uuidB) (greeted (withHeader (ascii "token") ⟨VERSION, 1, uuidB⟩))
        []).control = Control.exit
      ∧ (loopBody (envOf uuidB) (greeted (withHeader (ascii "token") ⟨VERSION, 1, uuidB⟩))
          []).clients = [])
    ∧ ((uuidA, recordA) ∈ ([] : Registry)
        ∨ ((uuidA, recordA).1 = (greeted (withHeader (ascii "token") ⟨VERSION, 1, uuidA⟩)).client1
          ∧ (uuidA, recordA).2.ID
              = (greeted (withHeader (ascii "token") ⟨VERSION, 1, uuidA⟩)).client1
          ∧ (uuidA, recordA).2.Address
              = (connOf addrA (sendMessageWithLength (ascii "hello")
                  ++ withHeader (ascii "token") ⟨VERSION, 1, uuidA⟩)).RemoteAddr
          ∧ (∃ env' ∈ [] ++ [envOf uuidA], env'.uuid = (uuidA, recordA).1)
          ∧ (uuidA, recordA).1
              ∈ (greeted (withHeader (ascii "token") ⟨VERSION, 1, uuidA⟩)).conn.written)) :=
  ⟨(identity_check (envOf uuidB) (greeted (withHeader (ascii "token") ⟨VERSION, 1, uuidB⟩))
      []).1 (sendHeader ⟨VERSION, 1, uuidB⟩) ⟨VERSION, 1, uuidB⟩
      ⟨addrA, [], .closed, [uuidA]⟩ (by decide) (by decide) (by decide),
   (identity_check (envOf uuidB) (greeted (withHeader (ascii "token") ⟨VERSION, 1, uuidA⟩))
      []).2 (connOf addrA (sendMessageWithLength (ascii "hello")
        ++ withHeader (ascii "token") ⟨VERSION, 1, uuidA⟩)) ([] ++ [envOf uuidA])
      (SessionReach.step [] _ (envOf uuidA) [] SessionReach.start (by decide))
      (uuidA, recordA) (by decide)⟩

/-- C5 (duplicate-token rejection): when the session's identifier already has a
record in the map, a "token" message whose valid header carries that identifier makes
the iteration return with the "already has a token" line, the map is exactly what it
was, and it holds exactly one entry under that identifier. -/
theorem duplicate_token_rejected (env : Env) (s : Session) (clients : Registry)
    (rest : List Byte) (header : Header) (conn' : Conn)
    (hkeys : (mapKeys clients).Nodup)
    (hhas : clientHasToken clients s.client1 = true)
    (hin : s.conn.incoming = sendMessageWithLength (ascii "token") ++ rest)
    (hc : checkHeaders { s.conn with incoming := rest } s.client1Address env.arrived
      = (.ok header, conn'))
    (hid : header.clientID = s.client1) :
    (loopBody env s clients).control = Control.exit
    ∧ (loopBody env s clients).clients = clients
    ∧ (loopBody env s clients).log
        = [.receivedToken s.client1Address, .alreadyHasToken s.client1]
    ∧ ((loopBody env s clients).clients.filter (fun e => decide (e.1 = s.client1))).length
        = 1 := by
  have hout : loopBody env s clients
      = { control := .exit, session := { s with conn := conn' }, clients := clients,
          log := [.receivedToken s.client1Address, .alreadyHasToken s.client1] } := by
    rw [loopBody_token env s clients rest hin]
    simp only [caseToken, hc, hid, ne_eq, not_true_eq_false, if_false, hhas, if_true]
  rw [hout]
  refine ⟨rfl, rfl, rfl, ?_⟩
  exact entries_of_key_length clients s.client1 hkeys
    ((mapGet?_isSome_iff clients s.client1).mp hhas)

theorem duplicate_token_rejected_witness :
    (loopBody (envOf uuidB) (greeted (withHeader (ascii "token") ⟨VERSION, 2, uuidA⟩))
        oneClient).control = Control.exit
    ∧ (loopBody (envOf uuidB) (greeted (withHeader (ascii "token") ⟨VERSION, 2, uuidA⟩))
        oneClient).clients = oneClient
    ∧ (loopBody (envOf uuidB) (greeted (withHeader (ascii "token") ⟨VERSION, 2, uuidA⟩))
        oneClient).log
        = [.receivedToken (greeted (withHeader (ascii "token") ⟨VERSION, 2, uuidA⟩)).client1Address,
           .alreadyHasToken (greeted (withHeader (ascii "token") ⟨VERSION, 2, uuidA⟩)).client1]
    ∧ ((loopBody (envOf uuidB) (greeted (withHeader (ascii "token") ⟨VERSION, 2, uuidA⟩))
        oneClient).clients.filter
          (fun e => decide (e.1 = (greeted (withHeader (ascii "token")
            ⟨VERSION, 2, uuidA⟩)).client1))).length = 1 :=
  duplicate_token_rejected (envOf uuidB)
    (greeted (withHeader (ascii "token") ⟨VERSION, 2, uuidA⟩)) oneClient
    (sendHeader ⟨VERSION, 2, uuidA⟩) ⟨VERSION, 2, uuidA⟩ ⟨addrA, [], .closed, [uuidA]⟩
    (by decide) (by decide) (by decide) (by decide) (by decide)

/-- C6 (no-token rejection): when the session's identifier has no record in the map
(in particular when no "hello" was received and the identifier is empty), a "match"
message with a valid header prints the "doesn't have a token" line and nothing about
a search or a match, leaves the map unchanged and goes on to the next iteration
without a panic. -/
theorem no_token_rejected (env : Env) (s : Session) (clients : Registry)
    (rest : List Byte) (header : Header) (conn' : Conn)
    (hhas : clientHasToken clients s.client1 = false)
    (hin : s.conn.incoming = sendMessageWithLength (ascii "match") ++ rest)
    (hc : checkHeaders { s.conn with incoming := rest } s.client1Address env.arrived
      = (.ok header, conn')) :
    loopBody env s clients
      = { control := .loop, session := { s with conn := conn' }, clients := clients,
          log := [.receivedMatch s.client1Address,
                  .matchRequest s.client1Address header.GameMode header.clientID,
                  .noToken s.client1] } := by
  rw [loopBody_match env s clients rest hin]
  simp only [caseMatch, hc, hhas, Bool.false_eq_true, if_false, List.cons_append, List.nil_append]

theorem no_token_rejected_witness :
    loopBody (envOf uuidB)
        (newSession (connOf addrA (withHeader (ascii "match") ⟨VERSION, 1, uuidA⟩))) oneClient
      = { control := .loop,
          session := { newSession (connOf addrA (withHeader (ascii "match") ⟨VERSION, 1, uuidA⟩))
            with conn := connOf addrA [] },
          clients := oneClient,
          log := [.receivedMatch
                    (newSession (connOf addrA
                      (withHeader (ascii "match") ⟨VERSION, 1, uuidA⟩))).client1Address,
                  .matchRequest
                    (newSession (connOf addrA
                      (withHeader (ascii "match") ⟨VERSION, 1, uuidA⟩))).client1Address
                    (⟨VERSION, 1, uuidA⟩ : Header).GameMode (⟨VERSION, 1, uuidA⟩ : Header).clientID,
                  .noToken
                    (newSession (connOf addrA
                      (withHeader (ascii "match") ⟨VERSION, 1, uuidA⟩))).client1] } :=
  no_token_rejected (envOf uuidB)
    (newSession (connOf addrA (withHeader (ascii "match") ⟨VERSION, 1, uuidA⟩))) oneClient
    (sendHeader ⟨VERSION, 1, uuidA⟩) ⟨VERSION, 1, uuidA⟩ (connOf addrA [])
    (by decide) (by decide) (by decide)

/-- C7 (partner search soundness): in a map whose records are stored under their
own, non-empty IDs, whatever the order of the `range` loop,
`findClientAddressByGameMode` returns the address and ID of a record with the requested
mode and an ID other than the requester's, or two empty strings when there is no such
record, and the returned ID is empty exactly in that case.  With records A and B in
mode 1 and C in mode 2, A's request returns B, B's request returns A, C's request
returns nobody, and C is returned to neither A nor B. -/
theorem partner_search_sound (clients : Registry) (seed : Nat) (hkeys : KeyedByID clients)
    (hne : ∀ e ∈ clients, e.2.ID ≠ []) :
    (∀ gameMode clientID,
      (∃ e ∈ clients, e.2.GameMode = gameMode ∧ e.2.ID ≠ clientID
          ∧ findClientAddressByGameMode clients gameMode clientID seed = (e.2.Address, e.2.ID))
      ∨ ((∀ e ∈ clients, ¬ (e.2.GameMode = gameMode ∧ e.2.ID ≠ clientID))
          ∧ findClientAddressByGameMode clients gameMode clientID seed = ([], [])))
    ∧ (∀ gameMode clientID,
        (findClientAddressByGameMode clients gameMode clientID seed).2 = [] ↔
          ∀ e ∈ clients, ¬ (e.2.GameMode = gameMode ∧ e.2.ID ≠ clientID))
    ∧ (∀ A B C : Client, clients.Perm [(A.ID, A), (B.ID, B), (C.ID, C)] →
        A.GameMode = 1 → B.GameMode = 1 → C.GameMode = 2 →
        findClientAddressByGameMode clients 1 A.ID seed = (B.Address, B.ID)
        ∧ findClientAddressByGameMode clients 1 B.ID seed = (A.Address, A.ID)
        ∧ findClientAddressByGameMode clients 2 C.ID seed = ([], [])
        ∧ (findClientAddressByGameMode clients 1 A.ID seed).2 ≠ C.ID
        ∧ (findClientAddressByGameMode clients 1 B.ID seed).2 ≠ C.ID) := by
  refine ⟨fun gameMode clientID => findClient_sound clients gameMode clientID seed, ?_, ?_⟩
  · intro gameMode clientID
    rcases findClient_sound clients gameMode clientID seed with ⟨e, he, h1, h2, h3⟩ | ⟨hnone, h3⟩
    · rw [h3]
      constructor
      · intro h; exact absurd h (hne e he)
      · intro h; exact absurd ⟨h1, h2⟩ (h e he)
    · rw [h3]
      exact ⟨fun _ => hnone, fun _ => rfl⟩
  · intro A B C hp hA hB hC
    obtain ⟨hAB, hAC, hBC⟩ := three_ids_distinct clients A B C hkeys hp
    have hmem : ∀ e, e ∈ clients ↔ e = (A.ID, A) ∨ e = (B.ID, B) ∨ e = (C.ID, C) := by
      intro e; rw [hp.mem_iff]; simp
    have h12 : (1 : Byte) ≠ 2 := by decide
    have rA : findClientAddressByGameMode clients 1 A.ID seed = (B.Address, B.ID) := by
      refine findClient_unique clients 1 A.ID seed (B.ID, B) ((hmem _).mpr (Or.inr (Or.inl rfl)))
        ⟨hB, fun h => hAB h.symm⟩ ?_
      intro e he hq
      rcases (hmem e).mp he with h | h | h
      · subst h; exact absurd rfl hq.2
      · exact h
      · subst h; exact absurd (hC.symm.trans hq.1) (fun h => h12 h.symm)
    have rB : findClientAddressByGameMode clients 1 B.ID seed = (A.Address, A.ID) := by
      refine findClient_unique clients 1 B.ID seed (A.ID, A) ((hmem _).mpr (Or.inl rfl))
        ⟨hA, hAB⟩ ?_
      intro e he hq
      rcases (hmem e).mp he with h | h | h
      · exact h
      · subst h; exact absurd rfl hq.2
      · subst h; exact absurd (hC.symm.trans hq.1) (fun h => h12 h.symm)
    have rC : findClientAddressByGameMode clients 2 C.ID seed = ([], []) := by
      rcases findClient_sound clients 2 C.ID seed with ⟨e, he, h1, h2, _⟩ | ⟨_, h3⟩
      · rcases (hmem e).mp he with h | h | h
        · subst h; exact absurd (hA.symm.trans h1) h12
        · subst h; exact absurd (hB.symm.trans h1) h12
        · subst h; exact absurd rfl h2
      · exact h3
    refine ⟨rA, rB, rC, ?_, ?_⟩
    · rw [rA]; exact hBC
    · rw [rB]; exact hAC

theorem partner_search_sound_witness :
    findClientAddressByGameMode [(uuidA, recordA), (uuidB, recordB), (ascii "c", recordC)]
        1 recordA.ID 4 = (recordB.Address, recordB.ID)
    ∧ findClientAddressByGameMode [(uuidA, recordA), (uuidB, recordB), (ascii "c", recordC)]
        1 recordB.ID 4 = (recordA.Address, recordA.ID)
    ∧ findClientAddressByGameMode [(uuidA, recordA), (uuidB, recordB), (ascii "c", recordC)]
        2 recordC.ID 4 = ([], [])
    ∧ (findClientAddressByGameMode [(uuidA, recordA), (uuidB, recordB), (ascii "c", recordC)]
        1 recordA.ID 4).2 ≠ recordC.ID
    ∧ (findClientAddressByGameMode [(uuidA, recordA), (uuidB, recordB), (ascii "c", recordC)]
        1 recordB.ID 4).2 ≠ recordC.ID :=
  (partner_search_sound [(uuidA, recordA), (uuidB, recordB), (ascii "c", recordC)] 4
    ⟨by decide, by decide⟩ (by decide)).2.2 recordA recordB recordC (List.Perm.refl _)
    rfl rfl rfl

/-- C8 (match scenario): from the empty map, after a first connection does "hello"
and "token" with mode `m` and a second connection does "hello" and "token" with the
same mode (the two UUIDs being different 36-byte strings), the "match" request of the
second connection finds the first client; when `findAvailableGameServer m` is not empty
it prints the match of the second address with the first address and that server,
which for mode 1 is "192.168.2.2"; when it is empty, which is the case exactly for
modes other than 0, 1 and 2, no match is printed. -/
theorem match_scenario (conn1 conn2 : Conn) (u1 u2 : GoString) (m : Byte)
    (e1 e2 e3 e4 e5 : Env) (rest1 rest2 : List Byte)
    (hu1 : u1.length = 36) (hu2 : u2.length = 36) (hne : u1 ≠ u2)
    (h1 : e1.uuid = u1) (hw1 : e1.writeFails = false) (ha2 : 40 ≤ e2.arrived)
    (h3 : e3.uuid = u2) (hw3 : e3.writeFails = false) (ha4 : 40 ≤ e4.arrived)
    (ha5 : 40 ≤ e5.arrived)
    (hin1 : conn1.incoming
      = sendMessageWithLength (ascii "hello")
        ++ (withHeader (ascii "token") ⟨VERSION, m, u1⟩ ++ rest1))
    (hin2 : conn2.incoming
      = sendMessageWithLength (ascii "hello")
        ++ (withHeader (ascii "token") ⟨VERSION, m, u2⟩
          ++ (withHeader (ascii "match") ⟨VERSION, m, u2⟩ ++ rest2))) :
    let o4 := (twoClients conn1 conn2 e1 e2 e3 e4 e5).1
    let o5 := (twoClients conn1 conn2 e1 e2 e3 e4 e5).2
    o4.clients = [(u1, ⟨conn1.RemoteAddr, u1, m⟩), (u2, ⟨conn2.RemoteAddr, u2, m⟩)]
    ∧ findClientAddressByGameMode o4.clients m u2 e5.findSeed = (conn1.RemoteAddr, u1)
    ∧ o5.control = Control.loop
    ∧ o5.clients = o4.clients
    ∧ (findAvailableGameServer m ≠ [] →
        o5.log = [Log.receivedMatch conn2.RemoteAddr, Log.matchRequest conn2.RemoteAddr m u2,
          Log.findingMatch u2, Log.currentClients (ListAllTokens o4.clients e5.listSeed),
          Log.foundClient u2 m u1,
          Log.matchCreated (findAvailableGameServer m) u2
            ⟨conn2.RemoteAddr, conn1.RemoteAddr⟩ u1])
    ∧ (m = 1 →
        Log.matchCreated (ascii "192.168.2.2") u2 ⟨conn2.RemoteAddr, conn1.RemoteAddr⟩ u1
          ∈ o5.log)
    ∧ (findAvailableGameServer m = [] →
        o5.log = [Log.receivedMatch conn2.RemoteAddr, Log.matchRequest conn2.RemoteAddr m u2,
          Log.findingMatch u2, Log.currentClients (ListAllTokens o4.clients e5.listSeed),
          Log.foundClient u2 m u1])
    ∧ (findAvailableGameServer m = [] ↔ m ≠ 0 ∧ m ≠ 1 ∧ m ≠ 2) := by
  intro o4' o5'
  let o1 := loopBody e1 (newSession conn1) []
  let o2 := loopBody e2 o1.session o1.clients
  let o3 := loopBody e3 (newSession conn2) o2.clients
  let o4 := loopBody e4 o3.session o3.clients
  let o5 := loopBody e5 o4.session o4.clients
  have e4' : o4' = o4 := by simp only [o4', o4, o3, o2, o1, twoClients]
  have e5' : o5' = o5 := by simp only [o5', o5, o4, o3, o2, o1, twoClients]
  rw [e4', e5']
  have hne' : u2 ≠ u1 := fun h => hne h.symm
  -- first connection: hello
  have q1 : o1 =
      { control := .loop,
        session := ⟨⟨conn1.RemoteAddr, withHeader (ascii "token") ⟨VERSION, m, u1⟩ ++ rest1,
          conn1.ending, conn1.written ++ [u1]⟩, conn1.RemoteAddr, u1⟩,
        clients := [],
        log := [.receivedHello conn1.RemoteAddr] } := by
    have := loopBody_hello e1 (newSession conn1) [] _ hin1 hw1
    rw [h1] at this
    exact this
  -- first connection: token
  have q2 : o2.clients = [(u1, ⟨conn1.RemoteAddr, u1, m⟩)] := by
    show (loopBody e2 o1.session o1.clients).clients = _
    rw [q1]
    rw [loopBody_token_ok e2 _ [] rest1 m (by simp [withHeader]) hu1 ha2 rfl]
    rfl
  -- second connection: hello
  have q3 : o3 =
      { control := .loop,
        session := ⟨⟨conn2.RemoteAddr, withHeader (ascii "token") ⟨VERSION, m, u2⟩
          ++ (withHeader (ascii "match") ⟨VERSION, m, u2⟩ ++ rest2),
          conn2.ending, conn2.written ++ [u2]⟩, conn2.RemoteAddr, u2⟩,
        clients := [(u1, ⟨conn1.RemoteAddr, u1, m⟩)],
        log := [.receivedHello conn2.RemoteAddr] } := by
    show loopBody e3 (newSession conn2) o2.clients = _
    rw [q2]
    have := loopBody_hello e3 (newSession conn2) [(u1, ⟨conn1.RemoteAddr, u1, m⟩)] _ hin2 hw3
    rw [h3] at this
    exact this
  -- second connection: token
  have hno : clientHasToken [(u1, (⟨conn1.RemoteAddr, u1, m⟩ : Client))] u2 = false := by
    simp [clientHasToken, mapGet?, hne]
  have q4 : o4 =
      { control := .loop,
        session := ⟨⟨conn2.RemoteAddr, withHeader (ascii "match") ⟨VERSION, m, u2⟩ ++ rest2,
          conn2.ending, conn2.written ++ [u2]⟩, conn2.RemoteAddr, u2⟩,
        clients := [(u1, ⟨conn1.RemoteAddr, u1, m⟩), (u2, ⟨conn2.RemoteAddr, u2, m⟩)],
        log := [.receivedToken conn2.RemoteAddr, .tokenCreated u2] } := by
    show loopBody e4 o3.session o3.clients = _
    rw [q3]
    rw [loopBody_token_ok e4 _ _ (withHeader (ascii "match") ⟨VERSION, m, u2⟩ ++ rest2) m
      (by simp [withHeader]) hu2 ha4 hno]
    simp [createClientToken, mapSet, hne]
  have hyes : clientHasToken [(u1, (⟨conn1.RemoteAddr, u1, m⟩ : Client)),
      (u2, ⟨conn2.RemoteAddr, u2, m⟩)] u2 = true := by
    simp [clientHasToken, mapGet?, hne]
  have hidx : mapIndex [(u1, (⟨conn1.RemoteAddr, u1, m⟩ : Client)),
      (u2, ⟨conn2.RemoteAddr, u2, m⟩)] u2 = ⟨conn2.RemoteAddr, u2, m⟩ := by
    simp [mapIndex, mapGet?, hne]
  have hfind : ∀ seed, findClientAddressByGameMode [(u1, (⟨conn1.RemoteAddr, u1, m⟩ : Client)),
      (u2, ⟨conn2.RemoteAddr, u2, m⟩)] m u2 seed = (conn1.RemoteAddr, u1) := by
    intro seed
    refine findClient_unique _ m u2 seed (u1, ⟨conn1.RemoteAddr, u1, m⟩) (by simp) ⟨rfl, hne⟩ ?_
    intro e he hq
    simp only [List.mem_cons, List.mem_singleton, List.not_mem_nil, or_false] at he
    rcases he with h | h
    · exact h
    · subst h; exact absurd rfl hq.2
  have q5 : o5 =
      { control := .loop,
        session := ⟨⟨conn2.RemoteAddr, rest2, conn2.ending, conn2.written ++ [u2]⟩,
          conn2.RemoteAddr, u2⟩,
        clients := [(u1, ⟨conn1.RemoteAddr, u1, m⟩), (u2, ⟨conn2.RemoteAddr, u2, m⟩)],
        log := [Log.receivedMatch conn2.RemoteAddr, Log.matchRequest conn2.RemoteAddr m u2]
          ++ matchLog e5 conn2.RemoteAddr u2
              [(u1, ⟨conn1.RemoteAddr, u1, m⟩), (u2, ⟨conn2.RemoteAddr, u2, m⟩)] } := by
    show loopBody e5 o4.session o4.clients = _
    rw [q4]
    rw [loopBody_match_ok e5 _ _ rest2 m u2 (by simp [withHeader]) hu2 ha5 hyes]
  have hlog : o5.log = [Log.receivedMatch conn2.RemoteAddr, Log.matchRequest conn2.RemoteAddr m u2,
      Log.findingMatch u2, Log.currentClients (ListAllTokens o4.clients e5.listSeed),
      Log.foundClient u2 m u1]
      ++ if findAvailableGameServer m ≠ [] then
          [Log.matchCreated (findAvailableGameServer m) u2
            ⟨conn2.RemoteAddr, conn1.RemoteAddr⟩ u1]
        else [] := by
    have hu1ne : u1 ≠ [] := by
      intro h0; rw [h0] at hu1; simp at hu1
    rw [q5, q4]
    simp only [matchLog, hidx, hfind, ne_eq, hu1ne, not_false_eq_true, if_true, createMatch,
      List.cons_append, List.nil_append]
  refine ⟨by rw [q4], by rw [q4]; exact hfind _, by rw [q5], by rw [q5, q4], ?_, ?_, ?_,
    findAvailableGameServer_eq_nil_iff m⟩
  · intro hs
    rw [hlog, if_pos hs]
    rfl
  · intro hm
    have hs : findAvailableGameServer m = ascii "192.168.2.2" := by rw [hm]; decide
    have hs' : findAvailableGameServer m ≠ [] := by rw [hs]; decide
    rw [hlog, if_pos hs', hs]
    simp
  · intro hs
    rw [hlog, if_neg (not_not.mpr hs)]
    rfl

theorem match_scenario_witness :
    Log.matchCreated (ascii "192.168.2.2") uuidB
        ⟨(connOf addrB (helloTokenMatch 1 uuidB)).RemoteAddr,
         (connOf addrA (helloToken 1 uuidA)).RemoteAddr⟩ uuidA
      ∈ (twoClients (connOf addrA (helloToken 1 uuidA)) (connOf addrB (helloTokenMatch 1 uuidB))
          (envOf uuidA) (envOf uuidA) (envOf uuidB) (envOf uuidB) (envOf uuidB)).2.log :=
  (match_scenario (connOf addrA (helloToken 1 uuidA)) (connOf addrB (helloTokenMatch 1 uuidB))
    uuidA uuidB 1 (envOf uuidA) (envOf uuidA) (envOf uuidB) (envOf uuidB) (envOf uuidB) [] []
    (by decide) (by decide) (by decide) rfl rfl (by decide) rfl rfl (by decide) (by decide)
    rfl rfl).2.2.2.2.2.1 rfl

/-- C9 (unregister on disconnect), evaluated on the code: when the peer has closed the
stream and nothing is left to read, the iteration prints the "closed by client" line
and returns with the map exactly as it was; so after "hello", "token" and the end of
the stream the record of the client at `addrA` is still in the map, and
`deleteClientToken` with that address, had it been called, would not remove it
either. -/
theorem eof_keeps_record :
    (∀ (env : Env) (s : Session) (clients : Registry),
      loopBody env { s with conn := { s.conn with incoming := [], ending := .closed } } clients
        = { control := .exit,
            session := { s with conn := { s.conn with incoming := [], ending := .closed } },
            clients := clients,
            log := [.connectionClosed s.client1Address] })
    ∧ (loopBody (envOf uuidA) (greeted (withHeader (ascii "token") ⟨VERSION, 1, uuidA⟩))
        []).clients = oneClient
    ∧ (loopBody (envOf uuidA)
        (loopBody (envOf uuidA) (greeted (withHeader (ascii "token") ⟨VERSION, 1, uuidA⟩))
          []).session oneClient)
        = { control := .exit,
            session := ⟨⟨addrA, [], .closed, [uuidA]⟩, addrA, uuidA⟩,
            clients := oneClient,
            log := [.connectionClosed addrA] }
    ∧ clientHasToken oneClient uuidA = true
    ∧ deleteClientToken oneClient addrA = oneClient := by
  refine ⟨fun env s clients => rfl, ?_, ?_, ?_, ?_⟩ <;> decide

/-- C10 (registry uniqueness): after any sequence of `createClientToken` and
`deleteClientToken` calls on the empty map, every key maps to a record whose ID is
that key, the keys are distinct, and no two records have the same ID. -/
theorem registry_uniqueness (ops : List RegistryOp) :
    (∀ k c, mapGet? (applyOps ops []) k = some c → c.ID = k)
    ∧ (∀ e ∈ applyOps ops [], e.2.ID = e.1)
    ∧ (mapKeys (applyOps ops [])).Nodup
    ∧ ((applyOps ops []).map (fun e => e.2.ID)).Nodup := by
  have h := keyedByID_applyOps ops [] keyedByID_nil
  refine ⟨?_, h.2, h.1, keyedByID_ids_nodup _ h⟩
  intro k c hk
  exact h.2 (k, c) (mapGet?_mem _ _ _ hk)

theorem registry_uniqueness_witness :
    (recordA.ID = uuidA)
    ∧ ((applyOps [.create addrA uuidA 1, .create addrB uuidB 1, .delete addrB,
          .create addrB uuidA 2] []).map (fun e => e.2.ID)).Nodup :=
  ⟨(registry_uniqueness [.create addrA uuidA 1, .create addrB uuidB 1, .delete addrA]).1
      uuidA recordA (by decide),
   (registry_uniqueness [.create addrA uuidA 1, .create addrB uuidB 1, .delete addrB,
      .create addrB uuidA 2]).2.2.2⟩

/-- C11, the claim as stated fails: on a map that already holds `uuidA`,
`createClientToken` reports nothing and replaces the record, with the new address and
mode. -/
theorem createClientToken_overwrites :
    clientHasToken oneClient uuidA = true
    ∧ createClientToken oneClient addrB uuidA 2
        = [(uuidA, { Address := addrB, ID := uuidA, GameMode := 2 })]
    ∧ createClientToken oneClient addrB uuidA 2 ≠ oneClient := by
  decide

/-- C11 (register and duplicates), as the code does it: on a map that already holds
`clientID`, `createClientToken` itself overwrites the record under that key with the new
address and mode, keeps the keys and leaves the other records alone; the rejection is
made by its caller, the "token" arm, which for a session with that identifier returns
with the map unchanged, whatever the header. -/
theorem register_guarded_by_caller (clients : Registry) (clientAddr clientID : GoString)
    (GameMode : Byte) (hhas : clientHasToken clients clientID = true) :
    mapGet? (createClientToken clients clientAddr clientID GameMode) clientID
      = some { Address := clientAddr, ID := clientID, GameMode := GameMode }
    ∧ mapKeys (createClientToken clients clientAddr clientID GameMode) = mapKeys clients
    ∧ (∀ k, k ≠ clientID →
        mapGet? (createClientToken clients clientAddr clientID GameMode) k = mapGet? clients k)
    ∧ (∀ env s rest, s.client1 = clientID →
        s.conn.incoming = sendMessageWithLength (ascii "token") ++ rest →
        (loopBody env s clients).control = Control.exit
          ∧ (loopBody env s clients).clients = clients) := by
  refine ⟨mapGet?_mapSet_self _ _ _, ?_, fun k hk => mapGet?_mapSet_other _ _ _ _ hk, ?_⟩
  · unfold createClientToken
    rw [mapKeys_mapSet, if_pos ((mapGet?_isSome_iff clients clientID).mp hhas)]
  · intro env s rest hid hin
    rw [loopBody_token env s clients rest hin]
    exact caseToken_has_token env _ clients (by rw [← hid] at hhas; exact hhas)

theorem register_guarded_by_caller_witness :
    mapGet? (createClientToken oneClient addrB uuidA 2) uuidA
      = some { Address := addrB, ID := uuidA, GameMode := 2 }
    ∧ mapKeys (createClientToken oneClient addrB uuidA 2) = mapKeys oneClient
    ∧ ((loopBody (envOf uuidB) (greeted (withHeader (ascii "token") ⟨VERSION, 2, uuidA⟩))
          oneClient).control = Control.exit
        ∧ (loopBody (envOf uuidB) (greeted (withHeader (ascii "token") ⟨VERSION, 2, uuidA⟩))
          oneClient).clients = oneClient) :=
  ⟨(register_guarded_by_caller oneClient addrB uuidA 2 (by decide)).1,
   (register_guarded_by_caller oneClient addrB uuidA 2 (by decide)).2.1,
   (register_guarded_by_caller oneClient addrB uuidA 2 (by decide)).2.2.2 (envOf uuidB)
     (greeted (withHeader (ascii "token") ⟨VERSION, 2, uuidA⟩)) (sendHeader ⟨VERSION, 2, uuidA⟩)
     (by decide) (by decide)⟩

/-- C12 (unregister removes the client), evaluated on the code: in a map whose records
are stored under their client ID, `deleteClientToken` with the address of a recorded
client deletes nothing, so a record with that address remains; it removes a record
only when it is given the client ID. -/
theorem deleteClientToken_keeps_record :
    KeyedByID oneClient
    ∧ deleteClientToken oneClient addrA = oneClient
    ∧ (∃ e ∈ deleteClientToken oneClient addrA, e.2.Address = addrA)
    ∧ deleteClientToken [(uuidA, recordA), (uuidB, recordB)] addrB
        = [(uuidA, recordA), (uuidB, recordB)]
    ∧ deleteClientToken [(uuidA, recordA), (uuidB, recordB)] uuidB = [(uuidA, recordA)] := by
  refine ⟨⟨by decide, by decide⟩, by decide, by decide, by decide, by decide⟩

/-- C13 (bad frame length), evaluated on the code: a length field whose first byte is
255 decodes as a negative `int32`, and the iteration ends in the panic of `make` with a
negative length, not in a `return`; for the bytes FF FF FF FF the length is -1. -/
theorem negative_length_panics :
    (∀ (env : Env) (s : Session) (clients : Registry) (b1 b2 b3 : Byte) (rest : List Byte),
      (loopBody env { s with conn := { s.conn with incoming := 255 :: b1 :: b2 :: b3 :: rest } }
        clients).control = Control.crash)
    ∧ getInt32BE 255 255 255 255 = -1
    ∧ loopBody (envOf uuidA) (newSession (connOf addrA [255, 255, 255, 255])) oneClient
        = { control := .crash,
            session := newSession (connOf addrA []),
            clients := oneClient,
            log := [] } := by
  refine ⟨?_, by decide, by decide⟩
  intro env s clients b1 b2 b3 rest
  rw [loopBody_negative env _ clients _ _
    (binaryReadInt32_cons _ 255 b1 b2 b3 rest rfl) (getInt32BE_negative b1 b2 b3)]

/-- C14 (at most one token per connection), evaluated on the code: on one connection
the sequence "hello", "token", "hello", "token" gets a second identifier at the second
"hello" and leaves two records with the address of that connection in the map. -/
theorem second_hello_registers_again :
    handleConnection reHelloEnvs reHelloConn []
      = some
          { control := .exit,
            session := ⟨⟨addrA, [], .closed, [uuidA, uuidB]⟩, addrA, uuidB⟩,
            clients := [(uuidA, { Address := addrA, ID := uuidA, GameMode := 1 }),
                        (uuidB, { Address := addrA, ID := uuidB, GameMode := 1 })],
            log := [.clientConnected addrA, .receivedHello addrA, .receivedToken addrA,
                    .tokenCreated uuidA, .receivedHello addrA, .receivedToken addrA,
                    .tokenCreated uuidB, .connectionClosed addrA] }
    ∧ (handleConnection reHelloEnvs reHelloConn []).map
        (fun out => (out.clients.filter (fun e => decide (e.2.Address = addrA))).length)
        = some 2
    ∧ (handleConnection reHelloEnvs reHelloConn []).map
        (fun out => out.session.conn.written) = some [uuidA, uuidB] := by
  decide

/-- C15, the claim as stated fails: a greeted session without a record sends "match"
with a valid header, and the iteration does not return. -/
theorem match_without_token_goes_on :
    clientHasToken [] (greeted (withHeader (ascii "match") ⟨VERSION, 1, uuidA⟩)).client1 = false
    ∧ loopBody (envOf uuidB) (greeted (withHeader (ascii "match") ⟨VERSION, 1, uuidA⟩)) []
        = { control := .loop,
            session := ⟨⟨addrA, [], .closed, [uuidA]⟩, addrA, uuidA⟩,
            clients := [],
            log := [.receivedMatch addrA, .matchRequest addrA 1 uuidA, .noToken uuidA] }
    ∧ (loopBody (envOf uuidB) (greeted (withHeader (ascii "match") ⟨VERSION, 1, uuidA⟩))
        []).control ≠ Control.exit := by
  decide

/-- C15 (match without token), as the code does it: when the session's identifier has
no record in the map, a "match" message with a valid header prints the no-token line,
leaves the map and the identifier unchanged, and the loop goes on with the next
frame. -/
theorem match_without_token_not_fatal (env : Env) (s : Session) (clients : Registry)
    (rest : List Byte) (header : Header) (conn' : Conn)
    (hhas : clientHasToken clients s.client1 = false)
    (hin : s.conn.incoming = sendMessageWithLength (ascii "match") ++ rest)
    (hc : checkHeaders { s.conn with incoming := rest } s.client1Address env.arrived
      = (.ok header, conn')) :
    (loopBody env s clients).control = Control.loop
    ∧ (loopBody env s clients).clients = clients
    ∧ (loopBody env s clients).session = { s with conn := conn' }
    ∧ (loopBody env s clients).log
        = [.receivedMatch s.client1Address,
           .matchRequest s.client1Address header.GameMode header.clientID,
           .noToken s.client1]
    ∧ (∀ fuel envs log, envs 0 = env →
        handleLoop (fuel + 1) envs s clients log
          = handleLoop fuel (fun i => envs (i + 1)) { s with conn := conn' } clients
              (log ++ [.receivedMatch s.client1Address,
                       .matchRequest s.client1Address header.GameMode header.clientID,
                       .noToken s.client1])) := by
  have h := loopBody_match_noToken env s clients rest header conn' hhas hin hc
  refine ⟨by rw [h], by rw [h], by rw [h], by rw [h], ?_⟩
  intro fuel envs log henv
  simp only [handleLoop, henv, h]

theorem match_without_token_not_fatal_witness :
    (loopBody (envOf uuidB) (greeted (withHeader (ascii "match") ⟨VERSION, 1, uuidA⟩))
        []).control = Control.loop
    ∧ (loopBody (envOf uuidB) (greeted (withHeader (ascii "match") ⟨VERSION, 1, uuidA⟩))
        []).clients = [] :=
  ⟨(match_without_token_not_fatal (envOf uuidB)
      (greeted (withHeader (ascii "match") ⟨VERSION, 1, uuidA⟩)) []
      (sendHeader ⟨VERSION, 1, uuidA⟩) ⟨VERSION, 1, uuidA⟩ ⟨addrA, [], .closed, [uuidA]⟩
      (by decide) (by decide) (by decide)).1,
   (match_without_token_not_fatal (envOf uuidB)
      (greeted (withHeader (ascii "match") ⟨VERSION, 1, uuidA⟩)) []
      (sendHeader ⟨VERSION, 1, uuidA⟩) ⟨VERSION, 1, uuidA⟩ ⟨addrA, [], .closed, [uuidA]⟩
      (by decide) (by decide) (by decide)).2.1⟩

/-- C16, the claim as stated fails: before any "hello", an unrecognized message and a
"match" message with a valid header both leave the session in its loop. -/
theorem early_messages_go_on :
    (newSession (connOf addrA (sendMessageWithLength (ascii "ping")))).client1 = []
    ∧ loopBody (envOf uuidA) (newSession (connOf addrA (sendMessageWithLength (ascii "ping")))) []
        = { control := .loop,
            session := newSession (connOf addrA []),
            clients := [],
            log := [.unknownMessage addrA (ascii "ping")] }
    ∧ loopBody (envOf uuidA)
        (newSession (connOf addrA (withHeader (ascii "match") ⟨VERSION, 1, uuidA⟩))) []
        = { control := .loop,
            session := newSession (connOf addrA []),
            clients := [],
            log := [.receivedMatch addrA, .matchRequest addrA 1 uuidA, .noToken []] } := by
  decide

/-- C16 (messages before "hello"), as the code does it: for a session without an
identifier, a "token" message always makes the iteration return with the map unchanged;
an unrecognized message is printed and the loop goes on; a "match" message makes the
iteration return when its header does not decode, and with a valid header (the map
having no record under the empty identifier) prints the no-token line and the loop
goes on. -/
theorem before_hello (env : Env) (s : Session) (clients : Registry) (hid : s.client1 = []) :
    (∀ rest, s.conn.incoming = sendMessageWithLength (ascii "token") ++ rest →
      (loopBody env s clients).control = Control.exit
        ∧ (loopBody env s clients).clients = clients)
    ∧ (∀ message rest, message.length < 2147483648 →
        message ≠ ascii "hello" → message ≠ ascii "token" → message ≠ ascii "match" →
        s.conn.incoming = sendMessageWithLength message ++ rest →
        loopBody env s clients
          = { control := .loop, session := { s with conn := { s.conn with incoming := rest } },
              clients := clients, log := [.unknownMessage s.client1Address message] })
    ∧ (∀ rest header conn',
        s.conn.incoming = sendMessageWithLength (ascii "match") ++ rest →
        checkHeaders { s.conn with incoming := rest } s.client1Address env.arrived
          = (.ok header, conn') →
        clientHasToken clients [] = false →
        loopBody env s clients
          = { control := .loop, session := { s with conn := conn' }, clients := clients,
              log := [.receivedMatch s.client1Address,
                      .matchRequest s.client1Address header.GameMode header.clientID,
                      .noToken []] })
    ∧ (∀ rest err conn',
        s.conn.incoming = sendMessageWithLength (ascii "match") ++ rest →
        checkHeaders { s.conn with incoming := rest } s.client1Address env.arrived
          = (.error err, conn') →
        (loopBody env s clients).control = Control.exit
          ∧ (loopBody env s clients).clients = clients) := by
  refine ⟨?_, ?_, ?_, ?_⟩
  · intro rest hin
    rw [loopBody_token env s clients rest hin]
    exact caseToken_no_identifier env _ clients hid
  · intro message rest hlen h1 h2 h3 hin
    exact loopBody_unknown env s clients message rest hlen h1 h2 h3 hin
  · intro rest header conn' hin hc hhas
    have := loopBody_match_noToken env s clients rest header conn' (by rw [hid]; exact hhas)
      hin hc
    rw [this, hid]
  · intro rest err conn' hin hc
    rw [loopBody_match_header_error env s clients rest err conn' hin hc]
    exact ⟨rfl, rfl⟩

theorem before_hello_witness :
    ((loopBody (envOf uuidA)
        (newSession (connOf addrA (withHeader (ascii "token") ⟨VERSION, 1, uuidA⟩))) []).control
        = Control.exit
      ∧ (loopBody (envOf uuidA)
        (newSession (connOf addrA (withHeader (ascii "token") ⟨VERSION, 1, uuidA⟩))) []).clients
        = [])
    ∧ loopBody (envOf uuidA)
        (newSession (connOf addrA (sendMessageWithLength (ascii "ping") ++ []))) []
        = { control := .loop,
            session :=
              { newSession (connOf addrA (sendMessageWithLength (ascii "ping") ++ [])) with
                conn :=
                  { (newSession (connOf addrA
                      (sendMessageWithLength (ascii "ping") ++ []))).conn with
                    incoming := [] } },
            clients := [],
            log := [.unknownMessage
              (newSession (connOf addrA
                (sendMessageWithLength (ascii "ping") ++ []))).client1Address (ascii "ping")] } :=
  ⟨(before_hello (envOf uuidA)
      (newSession (connOf addrA (withHeader (ascii "token") ⟨VERSION, 1, uuidA⟩))) [] rfl).1
      (sendHeader ⟨VERSION, 1, uuidA⟩) (by decide),
   (before_hello (envOf uuidA)
      (newSession (connOf addrA (sendMessageWithLength (ascii "ping") ++ []))) [] rfl).2.1
      (ascii "ping") [] (by decide) (by decide) (by decide) (by decide) rfl⟩

/-- C17, the claim as stated fails: for the client ID "abc" the ID field of the buffer
starts with "abc" and ends with zero bytes, so its last three bytes are not the ID. -/
theorem short_id_not_left_padded :
    slice (sendHeader { Version := VERSION, GameMode := 1, clientID := ascii "abc" }) 4 40
      = ascii "abc" ++ List.replicate 33 0
    ∧ (slice (sendHeader { Version := VERSION, GameMode := 1, clientID := ascii "abc" }) 4 40).drop
        33 ≠ ascii "abc" := by
  decide

/-- C17 (header encoding layout), as the code does it: `sendHeader` produces exactly 40
bytes; bytes 0..2 are the first three bytes of the version, filled with zero bytes when
it is shorter (so the version itself when it has three bytes); byte 3 is `GameMode`;
bytes 4..39 are the first 36 bytes of the client ID, and a shorter client ID occupies
the start of the field, followed by zero bytes up to 36. -/
theorem sendHeader_layout (header : Header) :
    (sendHeader header).length = 40
    ∧ slice (sendHeader header) 0 3
        = header.Version.take 3 ++ List.replicate (3 - header.Version.length) 0
    ∧ (sendHeader header).getD 3 0 = header.GameMode
    ∧ slice (sendHeader header) 4 40
        = header.clientID.take 36 ++ List.replicate (36 - header.clientID.length) 0
    ∧ (header.Version.length = 3 → slice (sendHeader header) 0 3 = header.Version)
    ∧ (36 ≤ header.clientID.length → slice (sendHeader header) 4 40 = header.clientID.take 36)
    ∧ (header.clientID.length < 36 →
        slice (sendHeader header) 4 (4 + header.clientID.length) = header.clientID
        ∧ slice (sendHeader header) (4 + header.clientID.length) 40
            = List.replicate (36 - header.clientID.length) 0) := by
  obtain ⟨h1, h2, h3⟩ := sendHeader_slices header
  refine ⟨sendHeader_length header, h1, h2, h3, ?_, ?_, ?_⟩
  · intro hv
    rw [h1, hv, Nat.sub_self, List.replicate_zero, List.append_nil]
    exact List.take_of_length_le (le_of_eq hv)
  · intro hl
    rw [h3, Nat.sub_eq_zero_of_le hl, List.replicate_zero, List.append_nil]
  · intro hl
    have hfield : (slice (sendHeader header) 4 40)
        = header.clientID ++ List.replicate (36 - header.clientID.length) 0 := by
      rw [h3, List.take_of_length_le (by omega)]
    have hlen := sendHeader_length header
    have e1 : slice (sendHeader header) 4 (4 + header.clientID.length)
        = (slice (sendHeader header) 4 40).take header.clientID.length := by
      simp only [slice, List.take_drop, List.take_take]
      congr 2
      omega
    have e2 : slice (sendHeader header) (4 + header.clientID.length) 40
        = (slice (sendHeader header) 4 40).drop header.clientID.length := by
      simp only [slice, List.drop_drop]
    rw [e1, e2, hfield]
    simp

theorem sendHeader_layout_witness :
    slice (sendHeader ⟨VERSION, 1, ascii "abc"⟩) 4
        (4 + (⟨VERSION, 1, ascii "abc"⟩ : Header).clientID.length)
      = (⟨VERSION, 1, ascii "abc"⟩ : Header).clientID
    ∧ slice (sendHeader ⟨VERSION, 1, ascii "abc"⟩)
        (4 + (⟨VERSION, 1, ascii "abc"⟩ : Header).clientID.length) 40
      = List.replicate (36 - (⟨VERSION, 1, ascii "abc"⟩ : Header).clientID.length) 0 :=
  (sendHeader_layout ⟨VERSION, 1, ascii "abc"⟩).2.2.2.2.2.2 (by decide)

/-- C18 (polling for a partner): for a registered session whose mode no other record
of the map shares, a "match" message with a valid header prints the "cannot find"
line and no match, leaves the map unchanged and the session in its loop with the same
identifier and address; once another session has registered in that mode, the next
"match" message of the first session finds that client. -/
theorem polling_for_partner (env env2 env3 : Env) (s s2 : Session) (clients : Registry)
    (rest rest2 rest3 : List Byte) (header header2 header3 : Header) (conn' conn2' conn3' : Conn)
    (hkeys : KeyedByID clients) (hhas : clientHasToken clients s.client1 = true)
    (halone : ∀ e ∈ clients,
      e.2.GameMode = (mapIndex clients s.client1).GameMode → e.1 = s.client1)
    (hin : s.conn.incoming = sendMessageWithLength (ascii "match") ++ rest)
    (hc : checkHeaders { s.conn with incoming := rest } s.client1Address env.arrived
      = (.ok header, conn'))
    (hin2 : s2.conn.incoming = sendMessageWithLength (ascii "token") ++ rest2)
    (hc2 : checkHeaders { s2.conn with incoming := rest2 } s2.client1Address env2.arrived
      = (.ok header2, conn2'))
    (hid2 : header2.clientID = s2.client1)
    (hmode2 : header2.GameMode = (mapIndex clients s.client1).GameMode)
    (hnew : clientHasToken clients s2.client1 = false)
    (hin3 : conn'.incoming = sendMessageWithLength (ascii "match") ++ rest3)
    (hc3 : checkHeaders { conn' with incoming := rest3 } s.client1Address env3.arrived
      = (.ok header3, conn3')) :
    loopBody env s clients
      = { control := .loop, session := { s with conn := conn' }, clients := clients,
          log := [Log.receivedMatch s.client1Address,
                  Log.matchRequest s.client1Address header.GameMode header.clientID,
                  Log.findingMatch s.client1,
                  Log.currentClients (ListAllTokens clients env.listSeed),
                  Log.cannotFind s.client1 (mapIndex clients s.client1).GameMode] }
    ∧ (loopBody env2 s2 (loopBody env s clients).clients).clients
        = createClientToken clients s2.client1Address s2.client1
            (mapIndex clients s.client1).GameMode
    ∧ findClientAddressByGameMode (loopBody env2 s2 (loopBody env s clients).clients).clients
        (mapIndex clients s.client1).GameMode s.client1 env3.findSeed
        = (s2.client1Address, s2.client1)
    ∧ (loopBody env3 (loopBody env s clients).session
        (loopBody env2 s2 (loopBody env s clients).clients).clients).control = Control.loop
    ∧ (loopBody env3 (loopBody env s clients).session
        (loopBody env2 s2 (loopBody env s clients).clients).clients).clients
        = (loopBody env2 s2 (loopBody env s clients).clients).clients
    ∧ Log.foundClient s.client1 (mapIndex clients s.client1).GameMode s2.client1
        ∈ (loopBody env3 (loopBody env s clients).session
            (loopBody env2 s2 (loopBody env s clients).clients).clients).log := by
  have hmem := mapIndex_of_has clients s.client1 hhas
  have hID : (mapIndex clients s.client1).ID = s.client1 := hkeys.2 _ hmem
  have q1 : loopBody env s clients
      = { control := .loop, session := { s with conn := conn' }, clients := clients,
          log := [Log.receivedMatch s.client1Address,
                  Log.matchRequest s.client1Address header.GameMode header.clientID,
                  Log.findingMatch s.client1,
                  Log.currentClients (ListAllTokens clients env.listSeed),
                  Log.cannotFind s.client1 (mapIndex clients s.client1).GameMode] } := by
    rw [loopBody_match_searches env s clients rest header conn' hin hc hhas,
      (matchLog_not_found env s.client1Address s.client1 clients hkeys hhas halone).2]
    rfl
  have q2 : loopBody env2 s2 clients
      = { control := .loop, session := { s2 with conn := conn2' },
          clients := createClientToken clients s2.client1Address s2.client1
            (mapIndex clients s.client1).GameMode,
          log := [.receivedToken s2.client1Address, .tokenCreated s2.client1] } := by
    rw [loopBody_token_registers env2 s2 clients rest2 header2 conn2' hin2 hc2 hid2 hnew, hmode2]
  obtain ⟨hidx, hfind⟩ := find_after_register clients s.client1 s2.client1Address s2.client1
    env3.findSeed hkeys hhas halone hnew
  have hhas3 : clientHasToken (createClientToken clients s2.client1Address s2.client1
      (mapIndex clients s.client1).GameMode) s.client1 = true := by
    unfold clientHasToken at hhas ⊢
    have hdiff : s.client1 ≠ s2.client1 := by
      intro h
      unfold clientHasToken at hnew
      rw [h, hnew] at hhas; cases hhas
    unfold createClientToken
    rw [mapGet?_mapSet_other _ _ _ _ hdiff]
    exact hhas
  have h2ne : s2.client1 ≠ [] := by
    have hlen := (checkHeaders_ok _ _ _ _ _ hc2).2
    intro h0; rw [hid2, h0] at hlen; simp at hlen
  have q3 : loopBody env3 { s with conn := conn' }
      (createClientToken clients s2.client1Address s2.client1
        (mapIndex clients s.client1).GameMode)
      = { control := .loop, session := { s with conn := conn3' },
          clients := createClientToken clients s2.client1Address s2.client1
            (mapIndex clients s.client1).GameMode,
          log := [Log.receivedMatch s.client1Address,
                  Log.matchRequest s.client1Address header3.GameMode header3.clientID]
                 ++ matchLog env3 s.client1Address s.client1
                      (createClientToken clients s2.client1Address s2.client1
                        (mapIndex clients s.client1).GameMode) } :=
    loopBody_match_searches env3 { s with conn := conn' } _ rest3 header3 conn3' hin3 hc3 hhas3
  have hfind' : findClientAddressByGameMode
      (createClientToken clients s2.client1Address s2.client1
        (mapIndex clients s.client1).GameMode)
      (mapIndex (createClientToken clients s2.client1Address s2.client1
        (mapIndex clients s.client1).GameMode) s.client1).GameMode
      (mapIndex (createClientToken clients s2.client1Address s2.client1
        (mapIndex clients s.client1).GameMode) s.client1).ID env3.findSeed
      = (s2.client1Address, s2.client1) := by
    rw [hidx]; exact hfind
  refine ⟨q1, ?_, ?_, ?_, ?_, ?_⟩
  · rw [q1, q2]
  · rw [q1, q2]
    have := hfind
    rw [hID] at this
    exact this
  · rw [q1, q2, q3]
  · rw [q1, q2, q3]
  · rw [q1, q2, q3, matchLog_found env3 _ _ _ _ _ h2ne hfind', hidx]
    simp

theorem polling_for_partner_witness :
    findClientAddressByGameMode
        (loopBody (envOf uuidB) newcomerSession
          (loopBody (envOf uuidA) pollingSession oneClient).clients).clients
        (mapIndex oneClient pollingSession.client1).GameMode pollingSession.client1
        (envOf uuidA).findSeed
      = (newcomerSession.client1Address, newcomerSession.client1)
    ∧ Log.foundClient pollingSession.client1 (mapIndex oneClient pollingSession.client1).GameMode
        newcomerSession.client1
      ∈ (loopBody (envOf uuidA) (loopBody (envOf uuidA) pollingSession oneClient).session
          (loopBody (envOf uuidB) newcomerSession
            (loopBody (envOf uuidA) pollingSession oneClient).clients).clients).log :=
  ⟨(polling_for_partner (envOf uuidA) (envOf uuidB) (envOf uuidA) pollingSession newcomerSession
      oneClient
      (sendHeader ⟨VERSION, 1, uuidA⟩ ++ withHeader (ascii "match") ⟨VERSION, 1, uuidA⟩)
      (sendHeader ⟨VERSION, 1, uuidB⟩) (sendHeader ⟨VERSION, 1, uuidA⟩)
      ⟨VERSION, 1, uuidA⟩ ⟨VERSION, 1, uuidB⟩ ⟨VERSION, 1, uuidA⟩
      (connOf addrA (withHeader (ascii "match") ⟨VERSION, 1, uuidA⟩)) (connOf addrB [])
      (connOf addrA [])
      ⟨by decide, by decide⟩ (by decide) (by decide) (by decide) (by decide) (by decide)
      (by decide) (by decide) (by decide) (by decide) (by decide) (by decide)).2.2.1,
   (polling_for_partner (envOf uuidA) (envOf uuidB) (envOf uuidA) pollingSession newcomerSession
      oneClient
      (sendHeader ⟨VERSION, 1, uuidA⟩ ++ withHeader (ascii "match") ⟨VERSION, 1, uuidA⟩)
      (sendHeader ⟨VERSION, 1, uuidB⟩) (sendHeader ⟨VERSION, 1, uuidA⟩)
      ⟨VERSION, 1, uuidA⟩ ⟨VERSION, 1, uuidB⟩ ⟨VERSION, 1, uuidA⟩
      (connOf addrA (withHeader (ascii "match") ⟨VERSION, 1, uuidA⟩)) (connOf addrB [])
      (connOf addrA [])
      ⟨by decide, by decide⟩ (by decide) (by decide) (by decide) (by decide) (by decide)
      (by decide) (by decide) (by decide) (by decide) (by decide) (by decide)).2.2.2.2.2⟩

/-- C19 (the client's version constant on the wire): for every game mode and every
client ID of 36 bytes, the 40-byte buffer `sendHeader` builds from the client's
`VERSION = "0031"` has "003" in bytes 0..2, `GameMode` in byte 3 and the client ID in
bytes 4..39, and `checkHeaders` accepts it and returns that game mode and client ID. -/
theorem client_version_accepted (GameMode : Byte) (clientID : GoString) (conn : Conn)
    (client1Address : GoString) (arrived : Nat) (rest : List Byte)
    (hid : clientID.length = 36) (harr : 40 ≤ arrived)
    (hin : conn.incoming
      = sendHeader { Version := clientVERSION, GameMode := GameMode, clientID := clientID }
        ++ rest) :
    (sendHeader { Version := clientVERSION, GameMode := GameMode, clientID := clientID }).length
      = 40
    ∧ slice (sendHeader { Version := clientVERSION, GameMode := GameMode, clientID := clientID })
        0 3 = ascii "003"
    ∧ (sendHeader { Version := clientVERSION, GameMode := GameMode, clientID := clientID }).getD
        3 0 = GameMode
    ∧ slice (sendHeader { Version := clientVERSION, GameMode := GameMode, clientID := clientID })
        4 40 = clientID
    ∧ checkHeaders conn client1Address arrived
        = (.ok { Version := VERSION, GameMode := GameMode, clientID := clientID },
            { conn with incoming := rest }) := by
  obtain ⟨h1, h2, h3⟩ :=
    sendHeader_slices { Version := clientVERSION, GameMode := GameMode, clientID := clientID }
  refine ⟨sendHeader_length _, ?_, h2, ?_, ?_⟩
  · rw [h1]; rfl
  · rw [h3]
    simp only [hid, Nat.sub_self, List.replicate_zero, List.append_nil]
    exact List.take_of_length_le (le_of_eq hid)
  · rw [sendHeader_clientVERSION] at hin
    exact checkHeaders_sendHeader GameMode clientID conn client1Address arrived rest hid harr hin

theorem client_version_accepted_witness :
    (sendHeader { Version := clientVERSION, GameMode := 1, clientID := uuidA }).length = 40
    ∧ slice (sendHeader { Version := clientVERSION, GameMode := 1, clientID := uuidA }) 0 3
        = ascii "003"
    ∧ (sendHeader { Version := clientVERSION, GameMode := 1, clientID := uuidA }).getD 3 0 = 1
    ∧ slice (sendHeader { Version := clientVERSION, GameMode := 1, clientID := uuidA }) 4 40
        = uuidA
    ∧ checkHeaders (connOf addrA (sendHeader ⟨clientVERSION, 1, uuidA⟩ ++ [9])) addrA 40
        = (.ok { Version := VERSION, GameMode := 1, clientID := uuidA },
            { connOf addrA (sendHeader ⟨clientVERSION, 1, uuidA⟩ ++ [9]) with incoming := [9] }) :=
  client_version_accepted 1 uuidA (connOf addrA (sendHeader ⟨clientVERSION, 1, uuidA⟩ ++ [9]))
    addrA 40 [9] (by decide) (by decide) rfl

/-- C20 (registered identifiers are never empty): in every map reachable from the
empty map, every key has exactly 36 bytes and every record is stored under its own,
non-empty ID; a "token" sent before any "hello" does not change the map; hence
`findClientAddressByGameMode` returns two empty strings exactly when no record has the
requested mode and another ID, and a non-empty returned ID is the ID of such a
record. -/
theorem registered_ids_nonempty (clients : Registry) (h : RegistryReach clients) :
    (∀ k ∈ mapKeys clients, k.length = 36)
    ∧ (∀ e ∈ clients, e.2.ID = e.1 ∧ e.2.ID ≠ [])
    ∧ (∀ env s rest, s.client1 = [] →
        s.conn.incoming = sendMessageWithLength (ascii "token") ++ rest →
        (loopBody env s clients).clients = clients)
    ∧ (∀ gameMode clientID seed,
        findClientAddressByGameMode clients gameMode clientID seed = ([], []) ↔
          ∀ e ∈ clients, ¬ (e.2.GameMode = gameMode ∧ e.2.ID ≠ clientID))
    ∧ (∀ gameMode clientID seed,
        (findClientAddressByGameMode clients gameMode clientID seed).2 ≠ [] →
        ∃ e ∈ clients, e.2.GameMode = gameMode ∧ e.2.ID ≠ clientID
          ∧ findClientAddressByGameMode clients gameMode clientID seed
              = (e.2.Address, e.2.ID)) := by
  obtain ⟨hkeys, hlen⟩ := registryReach_inv clients h
  have hne : ∀ e ∈ clients, e.2.ID ≠ [] := by
    intro e he h0
    have := hlen e.1 (List.mem_map_of_mem Prod.fst he)
    rw [← hkeys.2 e he, h0] at this
    simp at this
  refine ⟨hlen, fun e he => ⟨hkeys.2 e he, hne e he⟩, ?_, ?_, ?_⟩
  · intro env s rest hid hin
    rw [loopBody_token env s clients rest hin]
    exact (caseToken_no_identifier env { s with conn := { s.conn with incoming := rest } }
      clients hid).2
  · intro gameMode clientID seed
    rcases findClient_sound clients gameMode clientID seed with ⟨e, he, h1, h2, h3⟩ | ⟨hnone, h3⟩
    · rw [h3]
      constructor
      · intro h
        exact absurd (congrArg Prod.snd h) (hne e he)
      · intro h; exact absurd ⟨h1, h2⟩ (h e he)
    · rw [h3]
      exact ⟨fun _ => hnone, fun _ => rfl⟩
  · intro gameMode clientID seed hres
    rcases findClient_sound clients gameMode clientID seed with ⟨e, he, h1, h2, h3⟩ | ⟨_, h3⟩
    · exact ⟨e, he, h1, h2, h3⟩
    · rw [h3] at hres; exact absurd rfl hres

theorem registered_ids_nonempty_witness :
    (∀ k ∈ mapKeys (loopBody (envOf uuidA)
        (greeted (withHeader (ascii "token") ⟨VERSION, 1, uuidA⟩)) []).clients, k.length = 36)
    ∧ (loopBody (envOf uuidA) (greeted (withHeader (ascii "token") ⟨VERSION, 1, uuidA⟩))
        []).clients = oneClient :=
  ⟨(registered_ids_nonempty _
      (RegistryReach.step [] (connOf addrA (sendMessageWithLength (ascii "hello")
          ++ withHeader (ascii "token") ⟨VERSION, 1, uuidA⟩)) ([] ++ [envOf uuidA])
        (greeted (withHeader (ascii "token") ⟨VERSION, 1, uuidA⟩)) (envOf uuidA)
        RegistryReach.empty
        (SessionReach.step [] _ (envOf uuidA) [] SessionReach.start (by decide)))).1,
   by decide⟩

end Matchmaking
